import Mathlib

/-!
# AudioEngine (src/framework/audio/internal/audioengine.cpp)

A shallow embedding of the engine orchestrator.  Objects that C++ reaches
through `std::shared_ptr` are given an identity (`ObjId`); the objects the
engine owns (Mixer, Sequencer, SynthesizerController) are stored by value
together with their identity, the objects owned by the host (audio buffers,
audio sources / synthesizers) live in heaps indexed by identity.  A null
pointer is `none`; dereferencing a null pointer makes the operation return
`none` (no state is produced).

`ONLY_AUDIO_WORKER_THREAD` is a thread-confinement assertion with no effect
on the state and is not modelled.
-/

namespace AudioEngine

/-- Identity of a heap object (what a `std::shared_ptr` points to). -/
abbrev ObjId := Nat

/-- `IMixer::ChannelID`. -/
abbrev ChannelID := Nat

/-- `mu::Ret::Code`, restricted to the two codes `AudioEngine` produces. -/
inductive RetCode where
  | Ok
  | InternalError
  deriving DecidableEq, Repr

/-- Conversion of a C++ `int` to `unsigned int` (32 bit), as performed by
`m_sampleRate = sampleRate` and by passing `sampleRate` to an unsigned
parameter.  It is the identity on non-negative values. -/
def toUInt32 (x : Int) : Nat := (x % 4294967296).toNat

/-- Modelled from the spec: `IAudioSource` / `ISynthesizer` (their
declarations are not among the sources).  Only the state touched by the
engine is kept: the name (key of the soundfont lookup), the sample rate
written by `setSampleRate`, and the soundfonts associated by the
SynthesizerController. -/
structure AudioSource where
  name : String
  sampleRate : Nat
  soundFonts : List String

/-- Modelled from the spec: `IAudioBuffer` (declaration not among the
sources).  `source` is the pull source bound by `setSource` (`none` is
"no source"), `minSampleLag` the value written by `setMinSampleLag`. -/
structure AudioBuffer where
  source : Option ObjId
  minSampleLag : Nat

/-- Modelled from the spec: `ISequencer::AudioTrack`, a track instance with
the audio source it carries (`player->audioSource()`). -/
structure Track where
  id : ObjId
  audioSource : ObjId
  deriving DecidableEq, Repr

/-- The receivers that can be registered on `audioTrackAdded()`.  The only
one in the sources is the lambda installed by `AudioEngine::init`
(audioengine.cpp lines 71-73). -/
inductive Receiver where
  | engineAddChannel
  deriving DecidableEq, Repr

/-- Modelled from the spec: `Sequencer` (class not among the sources): it
owns the transport clock and the `audioTrackAdded` notification stream. -/
structure Sequencer where
  id : ObjId
  clock : ObjId
  audioTrackAdded : List Receiver
  deriving DecidableEq, Repr

/-- Modelled from the spec: `Mixer` (class not among the sources): the clock
bound by `setClock`, the current sample rate, and the live channel set, each
channel a fresh `ChannelID` with the source it wraps, in order of
registration. -/
structure Mixer where
  id : ObjId
  clock : Option ObjId
  sampleRate : Nat
  nextChannel : ChannelID
  channels : List (ChannelID × ObjId)
  deriving DecidableEq, Repr

/-- Modelled from the spec: `SynthesizerController` (class not among the
sources); it only holds references to the injected register and provider. -/
structure SynthesizerController where
  id : ObjId
  deriving DecidableEq, Repr

/-- The engine together with the part of the heap and of the injected
services it acts on.

* `nextId` is the allocator of `std::make_shared`: every identity below it
  has been handed out, every construction takes identities from it upwards.
* `buffers`, `sources` are the host-owned objects.
* `synthesizers` is `synthesizersRegister()->synthesizers()`,
  `soundFontPathsForSynth` is the injected `soundFontsProvider()`.
* the `m_` fields are the data members of `AudioEngine`; `m_initChanged` is
  the list of values sent on the `initChanged` channel, oldest first.
* `setSampleRateCalls` records the calls `synthesizer->setSampleRate(rate)`
  that the engine itself makes (line 127), as pairs of the synthesizer and
  the rate passed, oldest first. -/
structure World where
  nextId : ObjId
  buffers : ObjId → AudioBuffer
  sources : ObjId → AudioSource
  synthesizers : List ObjId
  soundFontPathsForSynth : String → List String
  m_inited : Bool
  m_initChanged : List Bool
  m_sampleRate : Nat
  m_sequencer : Option Sequencer
  m_mixer : Option Mixer
  m_buffer : Option ObjId
  m_synthesizerController : Option SynthesizerController
  setSampleRateCalls : List (ObjId × Nat)

/-- Modelled from the spec: the freshly constructed engine.  The member
initialisers are in audioengine.h, which is not among the sources; the spec
gives `initialized = false`, sample rate `0` before any init, and no Mixer,
Sequencer or buffer. -/
def World.fresh (nextId : ObjId) (buffers : ObjId → AudioBuffer) (sources : ObjId → AudioSource)
    (synthesizers : List ObjId) (provider : String → List String) : World :=
  { nextId := nextId
    buffers := buffers
    sources := sources
    synthesizers := synthesizers
    soundFontPathsForSynth := provider
    m_inited := false
    m_initChanged := []
    m_sampleRate := 0
    m_sequencer := none
    m_mixer := none
    m_buffer := none
    m_synthesizerController := none
    setSampleRateCalls := [] }

/-! ## Collaborators (modelled from the spec) -/

/-- Modelled from the spec: `synth->setSampleRate(rate)` on the source object
`s` (ISynthesizer is not among the sources). -/
def setSourceSampleRate (w : World) (s : ObjId) (rate : Nat) : World :=
  { w with sources := Function.update w.sources s { w.sources s with sampleRate := rate } }

/-- Modelled from the spec: `buffer->setSource(src)` on the buffer object `b`. -/
def bufferSetSource (w : World) (b : ObjId) (src : Option ObjId) : World :=
  { w with buffers := Function.update w.buffers b { w.buffers b with source := src } }

/-- Modelled from the spec: `buffer->setMinSampleLag(lag)` on the buffer `b`. -/
def bufferSetMinSampleLag (w : World) (b : ObjId) (lag : Nat) : World :=
  { w with buffers := Function.update w.buffers b { w.buffers b with minSampleLag := lag } }

/-- Modelled from the spec: `std::make_shared<Sequencer>()`.  The sequencer
and the clock it owns are new objects; nothing is subscribed yet. -/
def Sequencer.make (w : World) : Sequencer × World :=
  ({ id := w.nextId, clock := w.nextId + 1, audioTrackAdded := [] },
   { w with nextId := w.nextId + 2 })

/-- Modelled from the spec: `std::make_shared<Mixer>()`.  A new object with no
clock, sample rate not yet set and an empty channel set. -/
def Mixer.make (w : World) : Mixer × World :=
  ({ id := w.nextId, clock := none, sampleRate := 0, nextChannel := 0, channels := [] },
   { w with nextId := w.nextId + 1 })

/-- Modelled from the spec: `Mixer::setClock(clock)`. -/
def Mixer.setClock (m : Mixer) (clock : ObjId) : Mixer :=
  { m with clock := some clock }

/-- Modelled from the spec: `Mixer::mixedSource()`, the pull capability of
this mixer; it is identified with the mixer it belongs to. -/
def Mixer.mixedSource (m : Mixer) : ObjId := m.id

/-- Modelled from the spec: `Mixer::setSampleRate(rate)`, which "propagates to
all current and future channels": the rate is stored and written to the
source of every current channel. -/
def Mixer.setSampleRate (m : Mixer) (w : World) (rate : Nat) : Mixer × World :=
  ({ m with sampleRate := rate },
   m.channels.foldl (fun acc c => setSourceSampleRate acc c.2 rate) w)

/-- Modelled from the spec: `Mixer::addChannel(source)`, which "registers
source, assigns a fresh unique ID, applies the current sample rate to it".
No check is made whether the source is already registered. -/
def Mixer.addChannel (m : Mixer) (w : World) (source : ObjId) : ChannelID × Mixer × World :=
  (m.nextChannel,
   { m with nextChannel := m.nextChannel + 1, channels := m.channels ++ [(m.nextChannel, source)] },
   setSourceSampleRate w source m.sampleRate)

/-- Modelled from the spec: `std::make_shared<SynthesizerController>(register, provider)`. -/
def SynthesizerController.make (w : World) : SynthesizerController × World :=
  ({ id := w.nextId }, { w with nextId := w.nextId + 1 })

/-- Modelled from the spec: `SynthesizerController::init(sampleRate)`: "for
every registered synthesizer type, set its sample rate and associate it with
the soundfonts resolved by SoundFontsProvider for that synthesizer's name". -/
def SynthesizerController.init (w : World) (rate : Nat) : World :=
  w.synthesizers.foldl
    (fun acc s =>
      let old := acc.sources s
      let new : AudioSource :=
        { old with sampleRate := rate, soundFonts := acc.soundFontPathsForSynth old.name }
      { acc with sources := Function.update acc.sources s new })
    w

/-! ## AudioEngine (from audioengine.cpp) -/

/-- `AudioEngine::isInited` (lines 46-50). -/
def isInited (w : World) : Bool := w.m_inited

/-- `AudioEngine::sampleRate` (lines 112-116). -/
def sampleRate (w : World) : Nat := w.m_sampleRate

/-- `AudioEngine::buffer` (lines 118-122). -/
def buffer (w : World) : Option ObjId := w.m_buffer

/-- `AudioEngine::mixer` (lines 131-135). -/
def mixer (w : World) : Option Mixer := w.m_mixer

/-- `AudioEngine::sequencer` (lines 137-141). -/
def sequencer (w : World) : Option Sequencer := w.m_sequencer

/-- `m_initChanged.send(v)`: one more value delivered on the channel. -/
def sendInitChanged (w : World) (v : Bool) : World :=
  { w with m_initChanged := w.m_initChanged ++ [v] }

/-- The call `synthesizer->setSampleRate(rate)` made by the engine (line 127):
the synthesizer takes the rate, and the call is recorded. -/
def synthesizerSetSampleRate (w : World) (synthesizer : ObjId) (rate : Nat) : World :=
  { setSourceSampleRate w synthesizer rate with
    setSampleRateCalls := w.setSampleRateCalls ++ [(synthesizer, rate)] }

/-- `AudioEngine::startSynthesizer` (lines 124-129).
`synthesizer->setSampleRate(sampleRate())`, then
`return m_mixer->addChannel(synthesizer)`; `m_mixer` is dereferenced without
a check, so with no mixer there is no result. -/
def startSynthesizer (w : World) (synthesizer : ObjId) : Option (ChannelID × World) :=
  let w1 := synthesizerSetSampleRate w synthesizer (sampleRate w)
  match w1.m_mixer with
  | none => none
  | some m =>
    let r := m.addChannel w1 synthesizer
    some (r.1, { r.2.2 with m_mixer := some r.2.1 })

/-- The loop of `init` (lines 84-86): `startSynthesizer` on every synthesizer
of the list, in order, the returned channel ids being discarded. -/
def startSynthesizers (w : World) : List ObjId → Option World
  | [] => some w
  | s :: rest =>
    match startSynthesizer w s with
    | none => none
    | some r => startSynthesizers r.2 rest

/-- `AudioEngine::init` (lines 52-92). -/
def init (w : World) (sampleRate : Int) (readBufferSize : Nat) : Option (RetCode × World) :=
  if isInited w then
    some (RetCode.Ok, w)
  else
    match w.m_buffer with
    | none => some (RetCode.InternalError, w)
    | some b =>
      -- m_sequencer = std::make_shared<Sequencer>();
      let sq := Sequencer.make w
      let w1 : World := { sq.2 with m_sequencer := some sq.1 }
      -- m_mixer = std::make_shared<Mixer>(); m_mixer->setClock(m_sequencer->clock());
      let mx := Mixer.make w1
      let m1 := mx.1.setClock sq.1.clock
      let w2 : World := { mx.2 with m_mixer := some m1 }
      -- m_buffer->setSource(m_mixer->mixedSource());
      let w3 := bufferSetSource w2 b (some m1.mixedSource)
      -- m_sequencer->audioTrackAdded().onReceive(this, [this](AudioTrack player) {...});
      let sq1 : Sequencer :=
        { sq.1 with audioTrackAdded := sq.1.audioTrackAdded ++ [Receiver.engineAddChannel] }
      let w4 : World := { w3 with m_sequencer := some sq1 }
      -- m_sampleRate = sampleRate;
      let w5 : World := { w4 with m_sampleRate := toUInt32 sampleRate }
      -- m_mixer->setSampleRate(sampleRate);
      let sr := m1.setSampleRate w5 (toUInt32 sampleRate)
      let w6 : World := { sr.2 with m_mixer := some sr.1 }
      -- m_buffer->setMinSampleLag(readBufferSize);
      let w7 := bufferSetMinSampleLag w6 b readBufferSize
      -- m_synthesizerController = std::make_shared<SynthesizerController>(...);
      let sc := SynthesizerController.make w7
      let w8 : World := { sc.2 with m_synthesizerController := some sc.1 }
      -- m_synthesizerController->init(sampleRate);
      let w9 := SynthesizerController.init w8 (toUInt32 sampleRate)
      -- for (const ISynthesizerPtr& synth : synths) startSynthesizer(synth);
      match startSynthesizers w9 w9.synthesizers with
      | none => none
      | some w10 =>
        -- m_inited = true; m_initChanged.send(m_inited);
        let w11 : World := { w10 with m_inited := true }
        some (RetCode.Ok, sendInitChanged w11 w11.m_inited)

/-- `AudioEngine::deinit` (lines 94-104).  `m_buffer->setSource(nullptr)`
dereferences `m_buffer` without a check, so with no buffer attached there is
no result. -/
def deinit (w : World) : Option World :=
  if isInited w then
    match w.m_buffer with
    | none => none
    | some b =>
      let w1 := bufferSetSource w b none
      let w2 : World := { w1 with m_mixer := none }
      let w3 : World := { w2 with m_sequencer := none }
      let w4 : World := { w3 with m_inited := false }
      some (sendInitChanged w4 w4.m_inited)
  else
    some w

/-- `AudioEngine::setAudioBuffer` (lines 143-150). -/
def setAudioBuffer (w : World) (buffer : Option ObjId) : World :=
  let w1 : World := { w with m_buffer := buffer }
  match w1.m_buffer, w1.m_mixer with
  | some b, some m => bufferSetSource w1 b (some m.mixedSource)
  | _, _ => w1

/-- The body of the lambda subscribed in `init` (lines 71-73):
`m_mixer->addChannel(player->audioSource())`, on the engine's current mixer. -/
def onAudioTrackAdded (w : World) (player : Track) : Option World :=
  match w.m_mixer with
  | none => none
  | some m =>
    let r := m.addChannel w player.audioSource
    some { r.2.2 with m_mixer := some r.2.1 }

/-- Delivery of one `audioTrackAdded` event to a list of receivers, in order
of subscription. -/
def deliverTo (w : World) (player : Track) : List Receiver → Option World
  | [] => some w
  | Receiver.engineAddChannel :: rest =>
    match onAudioTrackAdded w player with
    | none => none
    | some w1 => deliverTo w1 player rest

/-- Modelled from the spec: the engine's Sequencer sends `player` on
`audioTrackAdded()`; every subscribed receiver runs.  With no Sequencer there
is nobody to send the event and nothing happens. -/
def sendAudioTrackAdded (w : World) (player : Track) : Option World :=
  match w.m_sequencer with
  | none => some w
  | some sq => deliverTo w player sq.audioTrackAdded

/-- A sequence of track-added events, delivered one after the other. -/
def sendAudioTracksAdded (w : World) : List Track → Option World
  | [] => some w
  | t :: rest =>
    match sendAudioTrackAdded w t with
    | none => none
    | some w1 => sendAudioTracksAdded w1 rest

/-- One call on the engine (or one event delivered to it). -/
inductive Op where
  | init (sampleRate : Int) (readBufferSize : Nat)
  | deinit
  | setAudioBuffer (buffer : Option ObjId)
  | startSynthesizer (synthesizer : ObjId)
  | audioTrackAdded (player : Track)
  deriving DecidableEq, Repr

/-- Effect of one call on the engine state. -/
def step (w : World) : Op → Option World
  | Op.init sr lag => (init w sr lag).map Prod.snd
  | Op.deinit => deinit w
  | Op.setAudioBuffer b => some (setAudioBuffer w b)
  | Op.startSynthesizer s => (startSynthesizer w s).map Prod.snd
  | Op.audioTrackAdded t => sendAudioTrackAdded w t

/-- Effect of a sequence of calls, first call first. -/
def run (w : World) : List Op → Option World
  | [] => some w
  | op :: rest =>
    match step w op with
    | none => none
    | some w1 => run w1 rest

/-! ## Predicates describing the effect of the calls -/

/-- The part of the state that starting synthesizers or wiring tracks never
touches, and the way the mixer grows: only channels are appended. -/
structure ChannelsAdded (w w1 : World) (added : List ObjId) : Prop where
  nextId : w1.nextId = w.nextId
  buffers : w1.buffers = w.buffers
  synthesizers : w1.synthesizers = w.synthesizers
  provider : w1.soundFontPathsForSynth = w.soundFontPathsForSynth
  inited : w1.m_inited = w.m_inited
  initChanged : w1.m_initChanged = w.m_initChanged
  rate : w1.m_sampleRate = w.m_sampleRate
  sequencer : w1.m_sequencer = w.m_sequencer
  buffer : w1.m_buffer = w.m_buffer
  controller : w1.m_synthesizerController = w.m_synthesizerController
  mixer : ∀ m, w.m_mixer = some m → ∃ m1, w1.m_mixer = some m1 ∧ m1.id = m.id ∧
    m1.clock = m.clock ∧ m1.sampleRate = m.sampleRate ∧
    m1.nextChannel = m.nextChannel + added.length ∧
    m1.channels.map Prod.snd = m.channels.map Prod.snd ++ added ∧
    m1.channels.length = m.channels.length + added.length
  sources : ∀ m, w.m_mixer = some m → ∀ x,
    (x ∈ added ∨ (w.sources x).sampleRate = m.sampleRate) → (w1.sources x).sampleRate = m.sampleRate
  mixerNone : w.m_mixer = none → w1.m_mixer = none

/-- The part of the state `SynthesizerController::init` leaves alone:
everything but the source objects. -/
structure OnlySources (w w1 : World) : Prop where
  nextId : w1.nextId = w.nextId
  buffers : w1.buffers = w.buffers
  synthesizers : w1.synthesizers = w.synthesizers
  provider : w1.soundFontPathsForSynth = w.soundFontPathsForSynth
  inited : w1.m_inited = w.m_inited
  initChanged : w1.m_initChanged = w.m_initChanged
  rate : w1.m_sampleRate = w.m_sampleRate
  sequencer : w1.m_sequencer = w.m_sequencer
  mixer : w1.m_mixer = w.m_mixer
  buffer : w1.m_buffer = w.m_buffer
  controller : w1.m_synthesizerController = w.m_synthesizerController
  calls : w1.setSampleRateCalls = w.setSampleRateCalls

/-- The engine state built by lines 64-79 of `init` (everything before the
SynthesizerController is initialised), written out field by field. -/
def initBuilt (w : World) (b : ObjId) (sampleRate : Int) (readBufferSize : Nat) : World :=
  { nextId := w.nextId + 4
    buffers := Function.update w.buffers b
      { source := some (w.nextId + 2), minSampleLag := readBufferSize }
    sources := w.sources
    synthesizers := w.synthesizers
    soundFontPathsForSynth := w.soundFontPathsForSynth
    m_inited := w.m_inited
    m_initChanged := w.m_initChanged
    m_sampleRate := toUInt32 sampleRate
    m_sequencer := some { id := w.nextId, clock := w.nextId + 1,
                          audioTrackAdded := [Receiver.engineAddChannel] }
    m_mixer := some { id := w.nextId + 2, clock := some (w.nextId + 1),
                      sampleRate := toUInt32 sampleRate, nextChannel := 0, channels := [] }
    m_buffer := w.m_buffer
    m_synthesizerController := some { id := w.nextId + 3 }
    setSampleRateCalls := w.setSampleRateCalls }

/-- Everything a successful, state-building `init` establishes. -/
structure InitResult (w : World) (b : ObjId) (sr : Int) (lag : Nat) (w1 : World) : Prop where
  nextId : w1.nextId = w.nextId + 4
  buffers : w1.buffers = Function.update w.buffers b
    { source := some (w.nextId + 2), minSampleLag := lag }
  synthesizers : w1.synthesizers = w.synthesizers
  provider : w1.soundFontPathsForSynth = w.soundFontPathsForSynth
  inited : w1.m_inited = true
  initChanged : w1.m_initChanged = w.m_initChanged ++ [true]
  rate : w1.m_sampleRate = toUInt32 sr
  sequencer : w1.m_sequencer = some { id := w.nextId, clock := w.nextId + 1,
                                      audioTrackAdded := [Receiver.engineAddChannel] }
  buffer : w1.m_buffer = some b
  controller : w1.m_synthesizerController = some { id := w.nextId + 3 }
  mixer : ∃ m1, w1.m_mixer = some m1 ∧ m1.id = w.nextId + 2 ∧
    m1.clock = some (w.nextId + 1) ∧ m1.sampleRate = toUInt32 sr ∧
    m1.nextChannel = w.synthesizers.length ∧
    m1.channels.map Prod.snd = w.synthesizers ∧
    m1.channels.length = w.synthesizers.length
  sources : ∀ x, x ∈ w.synthesizers → (w1.sources x).sampleRate = toUInt32 sr
  calls : w1.setSampleRateCalls =
    w.setSampleRateCalls ++ w.synthesizers.map (fun x => (x, toUInt32 sr))

/-- What `setAudioBuffer` leaves alone: everything but the attached buffer
and the buffer objects. -/
structure BufferSwapped (w w1 : World) (bf : Option ObjId) : Prop where
  nextId : w1.nextId = w.nextId
  sources : w1.sources = w.sources
  synthesizers : w1.synthesizers = w.synthesizers
  provider : w1.soundFontPathsForSynth = w.soundFontPathsForSynth
  inited : w1.m_inited = w.m_inited
  initChanged : w1.m_initChanged = w.m_initChanged
  rate : w1.m_sampleRate = w.m_sampleRate
  sequencer : w1.m_sequencer = w.m_sequencer
  mixer : w1.m_mixer = w.m_mixer
  buffer : w1.m_buffer = bf
  controller : w1.m_synthesizerController = w.m_synthesizerController

/-- Representation invariant of the engine. -/
structure Inv (w : World) : Prop where
  mixer : w.m_mixer.isSome = w.m_inited
  sequencer : w.m_sequencer.isSome = w.m_inited
  subscribed : ∀ sq, w.m_sequencer = some sq →
    sq.audioTrackAdded = [Receiver.engineAddChannel]
  rate : ∀ m, w.m_mixer = some m → m.sampleRate = w.m_sampleRate
  mixerId : ∀ m, w.m_mixer = some m → m.id < w.nextId
  sequencerId : ∀ sq, w.m_sequencer = some sq → sq.id < w.nextId

/-! ## Concrete engines used to exercise the theorems -/

/-- A freshly constructed engine: one registered synthesizer (object 7), the
allocator at 10, all buffers unbound, all sources at sample rate 0. -/
def engine0 : World :=
  World.fresh 10 (fun _ => { source := none, minSampleLag := 0 })
    (fun _ => { name := "fluid", sampleRate := 0, soundFonts := [] }) [7]
    (fun _ => ["default.sf2"])

/-- The state of `engine0` after the calls `ops`; `engine0` itself should a
call have no result. -/
def engineAfter (ops : List Op) : World := (run engine0 ops).getD engine0

/-- Buffer 0 attached, then `init(44100, 256)`. -/
def engineRunning : World :=
  engineAfter [Op.setAudioBuffer (some 0), Op.init 44100 256]

/-- Buffer 0 attached, `init(44100, 256)`, then `deinit()`. -/
def engineStopped : World :=
  engineAfter [Op.setAudioBuffer (some 0), Op.init 44100 256, Op.deinit]

/-- The running engine with its stored sample rate overwritten by 11, so
that it differs from the rate of its Mixer (44100); no sequence of calls
leads here. -/
def engineSkewed : World := { engineRunning with m_sampleRate := 11 }

/-- Buffer 0 attached, `init(44100, 256)`, then `setAudioBuffer(nullptr)`:
an initialized engine with no buffer attached. -/
def engineDetached : World :=
  engineAfter [Op.setAudioBuffer (some 0), Op.init 44100 256, Op.setAudioBuffer none]

/-! ## Notions used to state the claims -/

/-- The calls `init` and `deinit`. -/
def Op.isLifecycle : Op → Bool
  | Op.init _ _ => true
  | Op.deinit => true
  | _ => false

/-- The value of `isInited()` after each call of a sequence, in order. -/
def isInitedTrace (w : World) : List Op → List Bool
  | [] => []
  | op :: rest =>
    match step w op with
    | none => []
    | some w1 => isInited w1 :: isInitedTrace w1 rest

/-- The entries of a sequence of successive values that differ from the value
before them (`prev` being the value before the first): one entry, the new
value, per change. -/
def transitions (prev : Bool) : List Bool → List Bool
  | [] => []
  | v :: rest => if v = prev then transitions v rest else v :: transitions v rest

/-- The `sampleRate` argument of the most recent `init` call of a sequence,
whatever its outcome (`none` if the sequence has no `init` call). -/
def lastInitArg : List Op → Option Int
  | [] => none
  | op :: rest =>
    match lastInitArg rest with
    | some sr => some sr
    | none =>
      match op with
      | Op.init sr _ => some sr
      | _ => none

/-- The sample rate the claim C7 predicts after the calls `ops` on a fresh
engine: the argument of the most recent `init`, 0 if there is none. -/
def claimedSampleRate (ops : List Op) : Nat :=
  match lastInitArg ops with
  | some sr => toUInt32 sr
  | none => 0

/-- The `sampleRate` argument of the call `op` if it is an `init` made while
the engine is not initialized and has a buffer attached (an `init` that goes
past its two early returns). -/
def buildingInit (w : World) (op : Op) : Option Int :=
  match op with
  | Op.init sr _ => if !isInited w && (buffer w).isSome then some sr else none
  | _ => none

/-- The `sampleRate` argument of the most recent call of the sequence that
is an `init` going past its early returns, the sequence being run from `w`. -/
def lastBuildingInit (w : World) : List Op → Option Int
  | [] => none
  | op :: rest =>
    match step w op with
    | none => none
    | some w1 =>
      match lastBuildingInit w1 rest with
      | some sr => some sr
      | none => buildingInit w op

/-- Number of channels of the engine's mixer (0 with no mixer). -/
def channelCount (w : World) : Nat :=
  match mixer w with
  | none => 0
  | some m => m.channels.length

/-- The example track: instance 20 carrying audio source 21. -/
def track20 : Track := { id := 20, audioSource := 21 }

end AudioEngine

/-!
# FluidSynth::KeyTuning (src/framework/audio/internal/synthesizers/fluidsynth/fluidsynth.h)

The tuning table of the soundfont synthesizer: two parallel vectors, the
keys (`int`) and the pitches (`double`).  The arithmetic of `double` is a
parameter of the model, so that what is proved holds for every
implementation of it, IEEE 754 included.
-/

namespace FluidSynth

/-- The operations on `double` used by `KeyTuning::add`: the conversion of
the `int` key, the literal `100.0`, multiplication and addition. -/
structure DoubleArith (D : Type) where
  ofInt : Int → D
  hundred : D
  mul : D → D → D
  add : D → D → D

/-- Exact arithmetic on rationals.  On the values of the example of the spec
(60, 100.0, 50.0, 6000.0, 6050.0: integers far below 2^53) IEEE 754 binary64
arithmetic is exact and agrees with it. -/
def exactArith : DoubleArith Rat :=
  { ofInt := fun k => (k : Rat), hundred := 100, mul := fun a b => a * b, add := fun a b => a + b }

/-- `struct KeyTuning` (fluidsynth.h lines 67-92): `std::vector<int> keys`
and `std::vector<double> pitches`. -/
structure KeyTuning (D : Type) where
  keys : List Int
  pitches : List D

/-- A default-constructed `KeyTuning`: both vectors empty. -/
def KeyTuning.empty {D : Type} : KeyTuning D := { keys := [], pitches := [] }

/-- `KeyTuning::add` (lines 71-75): `keys.push_back(key);`
`pitches.push_back((key * 100.0) + tuning);`. -/
def KeyTuning.add {D : Type} (A : DoubleArith D) (t : KeyTuning D) (key : Int) (tuning : D) :
    KeyTuning D :=
  { keys := t.keys ++ [key]
    pitches := t.pitches ++ [A.add (A.mul (A.ofInt key) A.hundred) tuning] }

/-- Conversion of a vector size to `int` (32 bit, two's complement), as
performed by `static_cast<int>(keys.size())`.  It is the identity below
2^31. -/
def toInt32 (n : Nat) : Int := ((n : Int) + 2147483648) % 4294967296 - 2147483648

/-- `KeyTuning::size` (lines 77-80): `static_cast<int>(keys.size())`. -/
def KeyTuning.size {D : Type} (t : KeyTuning D) : Int := toInt32 t.keys.length

/-- `KeyTuning::reset` (lines 82-86): `keys.clear(); pitches.clear();`. -/
def KeyTuning.reset {D : Type} (_t : KeyTuning D) : KeyTuning D :=
  { keys := [], pitches := [] }

/-- `KeyTuning::isEmpty` (lines 88-91): `keys.empty() && pitches.empty()`. -/
def KeyTuning.isEmpty {D : Type} (t : KeyTuning D) : Bool :=
  t.keys.isEmpty && t.pitches.isEmpty

/-- One mutating call on a tuning table. -/
inductive TuningOp (D : Type) where
  | add (key : Int) (tuning : D)
  | reset

/-- Effect of one call. -/
def applyOp {D : Type} (A : DoubleArith D) (t : KeyTuning D) : TuningOp D → KeyTuning D
  | TuningOp.add key tuning => t.add A key tuning
  | TuningOp.reset => t.reset

/-- Effect of a sequence of calls, first call first. -/
def applyOps {D : Type} (A : DoubleArith D) (t : KeyTuning D) : List (TuningOp D) → KeyTuning D
  | [] => t
  | op :: rest => applyOps A (applyOp A t op) rest

end FluidSynth

/-!
# BendGridCanvas::mouseMoveEvent (src/inspector/view/widgets/bendgridcanvas.cpp)

The canvas holds the list of curve points, the index of the point being
dragged and the flag `m_canvasWasChanged`.  An element access outside the
list makes the operation stop with `Except.error i`, `i` being the offending
index.  `update()` only requests a repaint and is not modelled.
-/

namespace BendGridCanvas

/-- `CurvePoint::MoveDirection`. -/
inductive MoveDirection where
  | None
  | Horizontal
  | Vertical
  | Both
  deriving DecidableEq, Repr

/-- The fields of `CurvePoint` read or written by the canvas.  The struct is
declared in a header that is not among the sources; `time` and `pitch` are
integers there (the canvas casts them with `qreal(v.time)`, `qreal(v.pitch)`
and computes `point.pitch` in integer arithmetic) and `mouseMoveEvent` only
compares and copies them. -/
structure CurvePoint where
  time : Int
  pitch : Int
  endDashed : Bool
  generated : Bool
  moveDirection : MoveDirection
  deriving DecidableEq, Repr

/-- The two members of `CurvePoint` that the canvas calls and whose bodies
are not among the sources, taken as parameters: `canMove(direction)` and
`operator==`. -/
structure CurvePointOps where
  canMove : CurvePoint → MoveDirection → Bool
  eq : CurvePoint → CurvePoint → Bool

/-- An instance of the parameters used in the examples: a point can move in
a direction if its `moveDirection` is `Both` or that direction, and two
points are equal if they have the same time and pitch. -/
def exampleOps : CurvePointOps :=
  { canMove := fun p d => p.moveDirection == MoveDirection.Both || p.moveDirection == d
    eq := fun p q => p.time == q.time && p.pitch == q.pitch }

/-- The data members of `BendGridCanvas` used by `mouseMoveEvent`. -/
structure Canvas where
  m_points : List CurvePoint
  m_currentPointIndex : Option Int
  m_canvasWasChanged : Bool
  deriving DecidableEq, Repr

/-- Read access `m_points[i]` / `m_points.at(i)`: the element when
`0 ≤ i < size`, an out-of-bounds access at `i` otherwise. -/
def readAt (points : List CurvePoint) (i : Int) : Except Int CurvePoint :=
  if 0 ≤ i then
    match points[i.toNat]? with
    | some p => Except.ok p
    | none => Except.error i
  else
    Except.error i

/-- Write access `m_points[i].pitch = v`. -/
def writePitchAt (points : List CurvePoint) (i : Int) (v : Int) :
    Except Int (List CurvePoint) :=
  match readAt points i with
  | Except.error e => Except.error e
  | Except.ok p => Except.ok (points.set i.toNat { p with pitch := v })

/-- Write access `m_points[i].time = v`. -/
def writeTimeAt (points : List CurvePoint) (i : Int) (v : Int) :
    Except Int (List CurvePoint) :=
  match readAt points i with
  | Except.error e => Except.error e
  | Except.ok p => Except.ok (points.set i.toNat { p with time := v })

/-- Lines 241-247: the value of `canMove` after looking at the left
neighbour (`canMove` is `true` on entry). -/
def verticalLeftCheck (points : List CurvePoint) (index : Int) (currentPoint point : CurvePoint)
    (moveToTop : Bool) : Except Int Bool :=
  if index - 1 ≥ 0 then
    match readAt points (index - 1) with
    | Except.error e => Except.error e
    | Except.ok leftPoint =>
      let isLeftValid : Bool :=
        if moveToTop then decide (leftPoint.pitch ≥ currentPoint.pitch)
        else decide (leftPoint.pitch ≤ currentPoint.pitch)
      if isLeftValid then
        Except.ok (leftPoint.generated ||
          (if moveToTop then decide (leftPoint.pitch > point.pitch)
           else decide (leftPoint.pitch < point.pitch)))
      else
        Except.ok true
  else
    Except.ok true

/-- Lines 253-259: the value of `canMove` after looking at the right
neighbour (`canMove` is `true` on entry, line 249 having returned
otherwise). -/
def verticalRightCheck (points : List CurvePoint) (index : Int) (currentPoint point : CurvePoint)
    (moveToTop : Bool) : Except Int Bool :=
  if index + 1 < (points.length : Int) then
    match readAt points (index + 1) with
    | Except.error e => Except.error e
    | Except.ok rightPoint =>
      let isRightValid : Bool :=
        if moveToTop then decide (rightPoint.pitch ≥ currentPoint.pitch)
        else decide (rightPoint.pitch ≤ currentPoint.pitch)
      if isRightValid then
        Except.ok (rightPoint.generated ||
          (if moveToTop then decide (rightPoint.pitch > point.pitch)
           else decide (rightPoint.pitch < point.pitch)))
      else
        Except.ok true
  else
    Except.ok true

/-- Line 265: `(index + 1 < m_points.size()) && m_points.at(index + 1).endDashed`. -/
def isNextDashed (points : List CurvePoint) (index : Int) : Except Int Bool :=
  if index + 1 < (points.length : Int) then
    match readAt points (index + 1) with
    | Except.error e => Except.error e
    | Except.ok next => Except.ok next.endDashed
  else
    Except.ok false

/-- Lines 261-276, the body of `if (canMove)`: the pitch of the current point
is set, then the pitch of the point before it if the current point ends a
dashed segment, then the pitch of the point after it if that one does. -/
def applyVerticalMove (points : List CurvePoint) (index : Int) (currentPoint point : CurvePoint) :
    Except Int (List CurvePoint) :=
  match writePitchAt points index point.pitch with
  | Except.error e => Except.error e
  | Except.ok points1 =>
    let isDashed := currentPoint.endDashed
    match isNextDashed points1 index with
    | Except.error e => Except.error e
    | Except.ok nextDashed =>
      match (if isDashed then writePitchAt points1 (index - 1) point.pitch
             else Except.ok points1) with
      | Except.error e => Except.error e
      | Except.ok points2 =>
        if nextDashed then writePitchAt points2 (index + 1) point.pitch
        else Except.ok points2

/-- How the vertical part of `mouseMoveEvent` ends: with the `return` of
line 250, or by going on to the horizontal part with the point list and the
change flag it leaves. -/
inductive Flow where
  | returned
  | next (points : List CurvePoint) (changed : Bool)
  deriving DecidableEq, Repr

/-- Lines 237-277, the body of `if (canMoveVertically)`. -/
def moveVertically (points : List CurvePoint) (index : Int) (point : CurvePoint)
    (wasChanged : Bool) : Except Int Flow :=
  match readAt points index with
  | Except.error e => Except.error e
  | Except.ok currentPoint =>
    let moveToTop : Bool := decide (currentPoint.pitch < point.pitch)
    match verticalLeftCheck points index currentPoint point moveToTop with
    | Except.error e => Except.error e
    | Except.ok false => Except.ok Flow.returned
    | Except.ok true =>
      match verticalRightCheck points index currentPoint point moveToTop with
      | Except.error e => Except.error e
      | Except.ok false => Except.ok (Flow.next points wasChanged)
      | Except.ok true =>
        match applyVerticalMove points index currentPoint point with
        | Except.error e => Except.error e
        | Except.ok points1 => Except.ok (Flow.next points1 true)

/-- Lines 280-292: the value of `canMove` of the horizontal part. -/
def horizontalCheck (points : List CurvePoint) (index : Int) (currentPoint point : CurvePoint) :
    Except Int Bool :=
  let moveToLeft : Bool := decide (currentPoint.time > point.time)
  if moveToLeft then
    if index - 1 ≥ 0 then
      match readAt points (index - 1) with
      | Except.error e => Except.error e
      | Except.ok leftPoint => Except.ok (leftPoint.generated || decide (leftPoint.time < point.time))
    else
      Except.ok true
  else
    if index + 1 < (points.length : Int) then
      match readAt points (index + 1) with
      | Except.error e => Except.error e
      | Except.ok rightPoint =>
        Except.ok (rightPoint.generated || decide (rightPoint.time > point.time))
    else
      Except.ok true

/-- Lines 279-298, the body of `if (canMoveHorizontally)`: the point list and
the change flag it leaves. -/
def moveHorizontally (points : List CurvePoint) (index : Int) (point : CurvePoint)
    (wasChanged : Bool) : Except Int (List CurvePoint × Bool) :=
  match readAt points index with
  | Except.error e => Except.error e
  | Except.ok currentPoint =>
    match horizontalCheck points index currentPoint point with
    | Except.error e => Except.error e
    | Except.ok false => Except.ok (points, wasChanged)
    | Except.ok true =>
      match writeTimeAt points index point.time with
      | Except.error e => Except.error e
      | Except.ok points1 => Except.ok (points1, true)

/-- `BendGridCanvas::mouseMoveEvent` (lines 212-301), `point` being the curve
point computed from the mouse position (lines 218-221). -/
def mouseMoveEvent (ops : CurvePointOps) (s : Canvas) (point : CurvePoint) : Except Int Canvas :=
  match s.m_currentPointIndex with
  | none => Except.ok s
  | some index =>
    match readAt s.m_points index with
    | Except.error e => Except.error e
    | Except.ok currentPoint =>
      if ops.eq currentPoint point then
        Except.ok s
      else
        let canMoveHorizontally := ops.canMove currentPoint MoveDirection.Horizontal
        let canMoveVertically := ops.canMove currentPoint MoveDirection.Vertical
        if !canMoveHorizontally && !canMoveVertically then
          Except.ok s
        else
          match (if canMoveVertically then
                   moveVertically s.m_points index point s.m_canvasWasChanged
                 else Except.ok (Flow.next s.m_points s.m_canvasWasChanged)) with
          | Except.error e => Except.error e
          | Except.ok Flow.returned => Except.ok s
          | Except.ok (Flow.next points1 changed1) =>
            match (if canMoveHorizontally then moveHorizontally points1 index point changed1
                   else Except.ok (points1, changed1)) with
            | Except.error e => Except.error e
            | Except.ok r => Except.ok { s with m_points := r.1, m_canvasWasChanged := r.2 }

/-- A curve point with its pitch blanked: what a pitch write leaves alone. -/
def withoutPitch (p : CurvePoint) : CurvePoint := { p with pitch := 0 }

/-- The time values of a point list, left to right. -/
def times (points : List CurvePoint) : List Int := points.map CurvePoint.time

/-- A point at time 0 and pitch 0 that ends a dashed segment and can move
both ways. -/
def dashedPoint : CurvePoint :=
  { time := 0, pitch := 0, endDashed := true, generated := false,
    moveDirection := MoveDirection.Both }

/-- A canvas whose only point is `dashedPoint`; it is the point being
dragged. -/
def canvasDashedFirst : Canvas :=
  { m_points := [dashedPoint]
    m_currentPointIndex := some 0
    m_canvasWasChanged := false }

/-- A canvas with two points at times 0 and 20, none generated; the first
one is `dashedPoint` and is the point being dragged. -/
def canvasDashedPair : Canvas :=
  { m_points :=
      [dashedPoint,
       { time := 20, pitch := 300, endDashed := false, generated := false,
         moveDirection := MoveDirection.Both }]
    m_currentPointIndex := some 0
    m_canvasWasChanged := false }

/-- A canvas with three points at times 0, 20 and 40, the middle one being
dragged and ending a dashed segment. -/
def canvasThree : Canvas :=
  { m_points :=
      [{ time := 0, pitch := 0, endDashed := false, generated := false,
         moveDirection := MoveDirection.Both },
       { time := 20, pitch := 100, endDashed := true, generated := false,
         moveDirection := MoveDirection.Both },
       { time := 40, pitch := 100, endDashed := false, generated := false,
         moveDirection := MoveDirection.Both }]
    m_currentPointIndex := some 1
    m_canvasWasChanged := false }

/-- A target of the mouse: time 30, pitch 200. -/
def targetPoint : CurvePoint :=
  { time := 30, pitch := 200, endDashed := false, generated := false,
    moveDirection := MoveDirection.Both }

end BendGridCanvas

namespace AudioEngine

/-! ## Frame lemmas for the collaborators -/

theorem toUInt32_of_nonneg (x : Int) (h0 : 0 ≤ x) (h1 : x < 4294967296) :
    (toUInt32 x : Int) = x := by
  unfold toUInt32
  rw [Int.emod_eq_of_lt h0 h1]
  exact Int.toNat_of_nonneg h0

/-- What `startSynthesizer` does when a mixer exists. -/
theorem startSynthesizer_eq (w : World) (m : Mixer) (s : ObjId) (hm : w.m_mixer = some m) :
    startSynthesizer w s =
      some (m.nextChannel,
        { setSourceSampleRate (synthesizerSetSampleRate w s w.m_sampleRate) s m.sampleRate with
          m_mixer := some { m with nextChannel := m.nextChannel + 1,
                                   channels := m.channels ++ [(m.nextChannel, s)] } }) := by
  simp [startSynthesizer, synthesizerSetSampleRate, setSourceSampleRate, hm, Mixer.addChannel,
    sampleRate]

theorem ChannelsAdded.refl (w : World) : ChannelsAdded w w [] := by
  constructor <;> first | rfl | skip
  · intro m hm
    exact ⟨m, hm, rfl, rfl, rfl, by simp, by simp, by simp⟩
  · intro m _ x hx
    rcases hx with hx | hx
    · simp at hx
    · exact hx
  · exact id

theorem ChannelsAdded.trans {w w1 w2 : World} {l1 l2 : List ObjId}
    (h1 : ChannelsAdded w w1 l1) (h2 : ChannelsAdded w1 w2 l2) :
    ChannelsAdded w w2 (l1 ++ l2) := by
  constructor
  · rw [h2.nextId, h1.nextId]
  · rw [h2.buffers, h1.buffers]
  · rw [h2.synthesizers, h1.synthesizers]
  · rw [h2.provider, h1.provider]
  · rw [h2.inited, h1.inited]
  · rw [h2.initChanged, h1.initChanged]
  · rw [h2.rate, h1.rate]
  · rw [h2.sequencer, h1.sequencer]
  · rw [h2.buffer, h1.buffer]
  · rw [h2.controller, h1.controller]
  · intro m hm
    obtain ⟨m1, hm1, e1, e2, e3, e4, e5, e6⟩ := h1.mixer m hm
    obtain ⟨m2, hm2, f1, f2, f3, f4, f5, f6⟩ := h2.mixer m1 hm1
    refine ⟨m2, hm2, ?_, ?_, ?_, ?_, ?_, ?_⟩
    · rw [f1, e1]
    · rw [f2, e2]
    · rw [f3, e3]
    · rw [List.length_append]; simp only [ChannelID] at *; omega
    · rw [f5, e5, List.append_assoc]
    · rw [List.length_append]; omega
  · intro m hm x hx
    obtain ⟨m1, hm1, _, _, e3, _, _, _⟩ := h1.mixer m hm
    have key := h2.sources m1 hm1 x
    rw [e3] at key
    apply key
    rcases hx with hx | hx
    · rcases List.mem_append.mp hx with hx | hx
      · exact Or.inr (h1.sources m hm x (Or.inl hx))
      · exact Or.inl hx
    · exact Or.inr (h1.sources m hm x (Or.inr hx))
  · intro hn
    exact h2.mixerNone (h1.mixerNone hn)

/-- Adding one channel for `s` on the engine's mixer (what both
`startSynthesizer` and the track-added lambda end up doing). -/
theorem channelsAdded_one (w : World) (m : Mixer) (s : ObjId) (r : Nat)
    (c : List (ObjId × Nat)) (hm : w.m_mixer = some m) :
    ChannelsAdded w
      { setSourceSampleRate (setSourceSampleRate w s r) s m.sampleRate with
          m_mixer := some { m with nextChannel := m.nextChannel + 1,
                                   channels := m.channels ++ [(m.nextChannel, s)] }
          setSampleRateCalls := c } [s] := by
  constructor <;> first | rfl | skip
  · intro m0 hm0
    rw [hm] at hm0
    cases hm0
    exact ⟨_, rfl, rfl, rfl, rfl, rfl, by simp, by simp⟩
  · intro m0 hm0 x hx
    rw [hm] at hm0
    cases hm0
    by_cases hxs : x = s
    · subst hxs
      simp [setSourceSampleRate]
    · rcases hx with hx | hx
      · simp at hx
        exact absurd hx hxs
      · simpa [setSourceSampleRate, Function.update_noteq hxs] using hx
  · intro hn
    rw [hm] at hn
    cases hn

theorem controllerInit_fold (rate : Nat) (l : List ObjId) (w : World) :
    OnlySources w (l.foldl
      (fun acc s =>
        let old := acc.sources s
        let new : AudioSource :=
          { old with sampleRate := rate, soundFonts := acc.soundFontPathsForSynth old.name }
        { acc with sources := Function.update acc.sources s new })
      w) := by
  induction l generalizing w with
  | nil => constructor <;> rfl
  | cons s rest ih =>
    rw [List.foldl_cons]
    constructor
    · exact (ih _).nextId
    · exact (ih _).buffers
    · exact (ih _).synthesizers
    · exact (ih _).provider
    · exact (ih _).inited
    · exact (ih _).initChanged
    · exact (ih _).rate
    · exact (ih _).sequencer
    · exact (ih _).mixer
    · exact (ih _).buffer
    · exact (ih _).controller
    · exact (ih _).calls

theorem controllerInit_frame (w : World) (rate : Nat) :
    OnlySources w (SynthesizerController.init w rate) :=
  controllerInit_fold rate w.synthesizers w

/-- The loop of `init` never fails once a mixer exists, and appends one
channel per synthesizer, in list order. -/
theorem startSynthesizers_spec (l : List ObjId) (w : World) (m : Mixer)
    (hm : w.m_mixer = some m) :
    ∃ w1, startSynthesizers w l = some w1 ∧ ChannelsAdded w w1 l := by
  induction l generalizing w m with
  | nil => exact ⟨w, rfl, ChannelsAdded.refl w⟩
  | cons s rest ih =>
    have h1 := channelsAdded_one w m s w.m_sampleRate
      (w.setSampleRateCalls ++ [(s, w.m_sampleRate)]) hm
    obtain ⟨w2, hw2, hca⟩ := ih _ _ (rfl :
      ({ setSourceSampleRate (synthesizerSetSampleRate w s w.m_sampleRate) s m.sampleRate with
          m_mixer := some { m with nextChannel := m.nextChannel + 1,
                                   channels := m.channels ++ [(m.nextChannel, s)] } } : World).m_mixer
        = some _)
    refine ⟨w2, ?_, ?_⟩
    · simp only [startSynthesizers, startSynthesizer_eq w m s hm]
      exact hw2
    · exact ChannelsAdded.trans h1 hca

/-- The loop of `init` records one `setSampleRate` call per synthesizer, in
list order, each with the engine's sample rate. -/
theorem startSynthesizers_calls (l : List ObjId) (w w1 : World)
    (h : startSynthesizers w l = some w1) :
    w1.setSampleRateCalls = w.setSampleRateCalls ++ l.map (fun x => (x, w.m_sampleRate)) := by
  induction l generalizing w with
  | nil =>
    simp only [startSynthesizers, Option.some.injEq] at h
    subst h
    simp
  | cons s rest ih =>
    cases hm : w.m_mixer with
    | none =>
      have hn : startSynthesizer w s = none := by
        simp [startSynthesizer, synthesizerSetSampleRate, setSourceSampleRate, hm]
      simp [startSynthesizers, hn] at h
    | some m =>
      simp only [startSynthesizers, startSynthesizer_eq w m s hm] at h
      rw [ih _ h]
      simp [synthesizerSetSampleRate, setSourceSampleRate]

theorem init_eq_of_uninit (w : World) (b : ObjId) (sr : Int) (lag : Nat)
    (h1 : w.m_inited = false) (h2 : w.m_buffer = some b) :
    init w sr lag =
      match startSynthesizers (SynthesizerController.init (initBuilt w b sr lag) (toUInt32 sr))
          w.synthesizers with
      | none => none
      | some w10 => some (RetCode.Ok, sendInitChanged { w10 with m_inited := true } true) := by
  have hs : (SynthesizerController.init (initBuilt w b sr lag) (toUInt32 sr)).synthesizers
      = w.synthesizers := (controllerInit_frame _ _).synthesizers
  unfold init
  simp only [isInited, h1, h2]
  simp [Sequencer.make, Mixer.make, Mixer.setClock, Mixer.mixedSource, Mixer.setSampleRate,
    bufferSetSource, bufferSetMinSampleLag, SynthesizerController.make, initBuilt] at hs ⊢
  rw [hs]

/-- `init` on an uninitialized engine with a buffer attached always returns,
with `Ok`, in a state described by `InitResult`. -/
theorem init_spec (w : World) (b : ObjId) (sr : Int) (lag : Nat)
    (h1 : w.m_inited = false) (h2 : w.m_buffer = some b) :
    ∃ w1, init w sr lag = some (RetCode.Ok, w1) ∧ InitResult w b sr lag w1 := by
  have hf := controllerInit_frame (initBuilt w b sr lag) (toUInt32 sr)
  have hmx : (SynthesizerController.init (initBuilt w b sr lag) (toUInt32 sr)).m_mixer
      = some { id := w.nextId + 2, clock := some (w.nextId + 1),
               sampleRate := toUInt32 sr, nextChannel := 0, channels := [] } := hf.mixer
  obtain ⟨w10, h10, hca⟩ := startSynthesizers_spec w.synthesizers _ _ hmx
  refine ⟨sendInitChanged { w10 with m_inited := true } true, ?_, ?_⟩
  · rw [init_eq_of_uninit w b sr lag h1 h2, h10]
  · constructor
    · show w10.nextId = _
      rw [hca.nextId, hf.nextId]; rfl
    · show w10.buffers = _
      rw [hca.buffers, hf.buffers]; rfl
    · show w10.synthesizers = _
      rw [hca.synthesizers, hf.synthesizers]; rfl
    · show w10.soundFontPathsForSynth = _
      rw [hca.provider, hf.provider]; rfl
    · rfl
    · show w10.m_initChanged ++ [true] = _
      rw [hca.initChanged, hf.initChanged]; rfl
    · show w10.m_sampleRate = _
      rw [hca.rate, hf.rate]; rfl
    · show w10.m_sequencer = _
      rw [hca.sequencer, hf.sequencer]; rfl
    · show w10.m_buffer = _
      rw [hca.buffer, hf.buffer]; exact h2
    · show w10.m_synthesizerController = _
      rw [hca.controller, hf.controller]; rfl
    · obtain ⟨m1, hm1, e1, e2, e3, e4, e5, e6⟩ := hca.mixer _ hmx
      refine ⟨m1, hm1, e1, e2, e3, ?_, ?_, ?_⟩
      · simp only [ChannelID] at *; omega
      · simpa using e5
      · simpa using e6
    · intro x hx
      exact hca.sources _ hmx x (Or.inl hx)
    · show w10.setSampleRateCalls = _
      rw [startSynthesizers_calls _ _ _ h10, hf.calls, hf.rate]
      rfl

/-! ## What each call does, case by case -/

/-- The three ways `init` can go. -/
theorem init_cases (w : World) (sr : Int) (lag : Nat) :
    (w.m_inited = true ∧ init w sr lag = some (RetCode.Ok, w)) ∨
    (w.m_inited = false ∧ w.m_buffer = none ∧ init w sr lag = some (RetCode.InternalError, w)) ∨
    (∃ b w1, w.m_inited = false ∧ w.m_buffer = some b ∧
      init w sr lag = some (RetCode.Ok, w1) ∧ InitResult w b sr lag w1) := by
  cases h1 : w.m_inited with
  | true => exact Or.inl ⟨rfl, by simp [init, isInited, h1]⟩
  | false =>
    cases h2 : w.m_buffer with
    | none => exact Or.inr (Or.inl ⟨rfl, rfl, by simp [init, isInited, h1, h2]⟩)
    | some b =>
      obtain ⟨w1, hw1, hr⟩ := init_spec w b sr lag h1 h2
      exact Or.inr (Or.inr ⟨b, w1, rfl, rfl, hw1, hr⟩)

/-- What `deinit` does on an initialized engine with a buffer attached. -/
theorem deinit_eq_of_inited (w : World) (b : ObjId)
    (h1 : w.m_inited = true) (h2 : w.m_buffer = some b) :
    deinit w = some
      { w with
        buffers := Function.update w.buffers b { w.buffers b with source := none }
        m_mixer := none
        m_sequencer := none
        m_inited := false
        m_initChanged := w.m_initChanged ++ [false] } := by
  simp [deinit, isInited, h1, h2, bufferSetSource, sendInitChanged]

theorem deinit_eq_of_uninit (w : World) (h1 : w.m_inited = false) : deinit w = some w := by
  simp [deinit, isInited, h1]

/-- `startSynthesizer` returns exactly when a mixer exists. -/
theorem startSynthesizer_cases (w : World) (s : ObjId) :
    (w.m_mixer = none ∧ startSynthesizer w s = none) ∨
    (∃ m w1, w.m_mixer = some m ∧ startSynthesizer w s = some (m.nextChannel, w1) ∧
      ChannelsAdded w w1 [s]) := by
  cases hm : w.m_mixer with
  | none =>
    exact Or.inl ⟨rfl, by
      simp [startSynthesizer, synthesizerSetSampleRate, setSourceSampleRate, hm]⟩
  | some m =>
    exact Or.inr ⟨m, _, rfl, startSynthesizer_eq w m s hm,
      channelsAdded_one w m s w.m_sampleRate (w.setSampleRateCalls ++ [(s, w.m_sampleRate)]) hm⟩

/-- The lambda subscribed by `init` adds one channel for the track's source
whenever it runs with a mixer present. -/
theorem onAudioTrackAdded_cases (w : World) (t : Track) :
    (w.m_mixer = none ∧ onAudioTrackAdded w t = none) ∨
    (∃ w1, onAudioTrackAdded w t = some w1 ∧ ChannelsAdded w w1 [t.audioSource]) := by
  cases hm : w.m_mixer with
  | none => exact Or.inl ⟨rfl, by simp [onAudioTrackAdded, hm]⟩
  | some m =>
    have h := channelsAdded_one w m t.audioSource (w.sources t.audioSource).sampleRate
      w.setSampleRateCalls hm
    have e : setSourceSampleRate w t.audioSource (w.sources t.audioSource).sampleRate = w := by
      simp [setSourceSampleRate]
    rw [e] at h
    exact Or.inr ⟨_, (by simp only [onAudioTrackAdded, hm, Mixer.addChannel]; rfl), h⟩

theorem deliverTo_frame (t : Track) (rs : List Receiver) (w w1 : World)
    (h : deliverTo w t rs = some w1) :
    ChannelsAdded w w1 (List.replicate rs.length t.audioSource) := by
  induction rs generalizing w with
  | nil =>
    simp only [deliverTo, Option.some.injEq] at h
    subst h
    exact ChannelsAdded.refl w
  | cons r rest ih =>
    cases r
    rcases onAudioTrackAdded_cases w t with ⟨_, hn⟩ | ⟨w2, hw2, hca⟩
    · simp [deliverTo, hn] at h
    · simp only [deliverTo, hw2] at h
      have := ChannelsAdded.trans hca (ih w2 h)
      simpa [List.replicate_succ] using this

/-- An `audioTrackAdded` event only ever appends channels. -/
theorem sendAudioTrackAdded_frame (w w1 : World) (t : Track)
    (h : sendAudioTrackAdded w t = some w1) : ∃ added, ChannelsAdded w w1 added := by
  cases hs : w.m_sequencer with
  | none =>
    simp only [sendAudioTrackAdded, hs, Option.some.injEq] at h
    subst h
    exact ⟨[], ChannelsAdded.refl w⟩
  | some sq =>
    simp only [sendAudioTrackAdded, hs] at h
    exact ⟨_, deliverTo_frame t _ w w1 h⟩

theorem setAudioBuffer_frame (w : World) (bf : Option ObjId) :
    BufferSwapped w (setAudioBuffer w bf) bf := by
  unfold setAudioBuffer
  cases bf with
  | none => constructor <;> rfl
  | some b =>
    cases hm : w.m_mixer with
    | none => simp only [hm]; constructor <;> first | rfl | exact hm.symm
    | some m => simp only [hm]; constructor <;> first | rfl | exact hm.symm

/-- Every call that returns falls in one of five classes. -/
theorem step_cases (w w1 : World) (op : Op) (h : step w op = some w1) :
    (w1 = w ∧ (op = Op.deinit ∨ ∃ sr lag, op = Op.init sr lag ∧
        (w.m_inited = true ∨ w.m_buffer = none))) ∨
    (∃ b sr lag, op = Op.init sr lag ∧ w.m_inited = false ∧ w.m_buffer = some b ∧
        InitResult w b sr lag w1) ∨
    (∃ b, op = Op.deinit ∧ w.m_inited = true ∧ w.m_buffer = some b ∧
        deinit w = some w1 ∧ w1.nextId = w.nextId ∧ w1.m_inited = false ∧
        w1.m_initChanged = w.m_initChanged ++ [false] ∧ w1.m_sampleRate = w.m_sampleRate ∧
        w1.m_mixer = none ∧ w1.m_sequencer = none ∧ w1.m_buffer = w.m_buffer) ∨
    (∃ bf, op = Op.setAudioBuffer bf ∧ BufferSwapped w w1 bf) ∨
    (∃ l, (∀ sr lag, op ≠ Op.init sr lag) ∧ ChannelsAdded w w1 l) := by
  cases op with
  | init sr lag =>
    simp only [step] at h
    rcases init_cases w sr lag with ⟨h1, he⟩ | ⟨h1, h2, he⟩ | ⟨b, w2, h1, h2, he, hr⟩
    · rw [he] at h
      simp only [Option.map_some', Option.some.injEq] at h
      exact Or.inl ⟨h.symm, Or.inr ⟨sr, lag, rfl, Or.inl h1⟩⟩
    · rw [he] at h
      simp only [Option.map_some', Option.some.injEq] at h
      exact Or.inl ⟨h.symm, Or.inr ⟨sr, lag, rfl, Or.inr h2⟩⟩
    · rw [he] at h
      simp only [Option.map_some', Option.some.injEq] at h
      subst h
      exact Or.inr (Or.inl ⟨b, sr, lag, rfl, h1, h2, hr⟩)
  | deinit =>
    simp only [step] at h
    cases h1 : w.m_inited with
    | false =>
      rw [deinit_eq_of_uninit w h1, Option.some.injEq] at h
      exact Or.inl ⟨h.symm, Or.inl rfl⟩
    | true =>
      cases h2 : w.m_buffer with
      | none => simp [deinit, isInited, h1, h2] at h
      | some b =>
        have he := deinit_eq_of_inited w b h1 h2
        have h3 := h
        rw [he, Option.some.injEq] at h
        subst h
        refine Or.inr (Or.inr (Or.inl ⟨b, rfl, rfl, rfl, ?_, rfl, rfl, rfl, rfl, rfl, rfl, h2⟩))
        rw [← he]
  | setAudioBuffer bf =>
    simp only [step, Option.some.injEq] at h
    subst h
    exact Or.inr (Or.inr (Or.inr (Or.inl ⟨bf, rfl, setAudioBuffer_frame w bf⟩)))
  | startSynthesizer s =>
    simp only [step] at h
    rcases startSynthesizer_cases w s with ⟨_, hn⟩ | ⟨m, w2, _, he, hca⟩
    · rw [hn] at h
      simp at h
    · rw [he] at h
      simp only [Option.map_some', Option.some.injEq] at h
      subst h
      exact Or.inr (Or.inr (Or.inr (Or.inr ⟨[s], (fun _ _ hne => by cases hne), hca⟩)))
  | audioTrackAdded t =>
    simp only [step] at h
    obtain ⟨l, hca⟩ := sendAudioTrackAdded_frame w w1 t h
    exact Or.inr (Or.inr (Or.inr (Or.inr ⟨l, (fun _ _ hne => by cases hne), hca⟩)))

theorem fresh_inv (n : ObjId) (bufs : ObjId → AudioBuffer) (srcs : ObjId → AudioSource)
    (l : List ObjId) (p : String → List String) : Inv (World.fresh n bufs srcs l p) := by
  constructor <;> first | rfl | (intro x hx; cases hx)

theorem step_inv (w w1 : World) (op : Op) (hi : Inv w) (h : step w op = some w1) : Inv w1 := by
  rcases step_cases w w1 op h with ⟨he, _⟩ | ⟨b, sr, lag, _, _, _, hr⟩ |
    ⟨b, _, _, _, _, _, h3, _, _, h6, h7, _⟩ | ⟨bf, _, hb⟩ | ⟨l, _, hca⟩
  · rw [he]; exact hi
  · obtain ⟨m1, hm1, e1, _, e3, _, _, _⟩ := hr.mixer
    constructor
    · rw [hm1, hr.inited]; rfl
    · rw [hr.sequencer, hr.inited]; rfl
    · intro sq hsq
      rw [hr.sequencer] at hsq
      cases hsq
      rfl
    · intro m hm
      rw [hm1] at hm
      cases hm
      rw [e3, hr.rate]
    · intro m hm
      rw [hm1] at hm
      cases hm
      rw [e1, hr.nextId]
      simp only [ObjId] at *; omega
    · intro sq hsq
      rw [hr.sequencer] at hsq
      cases hsq
      rw [hr.nextId]
      simp only [ObjId] at *; omega
  · constructor
    · rw [h6, h3]; rfl
    · rw [h7, h3]; rfl
    · intro sq hsq; rw [h7] at hsq; cases hsq
    · intro m hm; rw [h6] at hm; cases hm
    · intro m hm; rw [h6] at hm; cases hm
    · intro sq hsq; rw [h7] at hsq; cases hsq
  · constructor
    · rw [hb.mixer, hb.inited]; exact hi.mixer
    · rw [hb.sequencer, hb.inited]; exact hi.sequencer
    · intro sq hsq; rw [hb.sequencer] at hsq; exact hi.subscribed sq hsq
    · intro m hm; rw [hb.mixer] at hm; rw [hb.rate]; exact hi.rate m hm
    · intro m hm; rw [hb.mixer] at hm; rw [hb.nextId]; exact hi.mixerId m hm
    · intro sq hsq; rw [hb.sequencer] at hsq; rw [hb.nextId]; exact hi.sequencerId sq hsq
  · have hmix : w1.m_mixer.isSome = w.m_mixer.isSome := by
      cases hm : w.m_mixer with
      | none => rw [hca.mixerNone hm]
      | some m =>
        obtain ⟨m1, hm1, _⟩ := hca.mixer m hm
        rw [hm1]; rfl
    constructor
    · rw [hmix, hca.inited]; exact hi.mixer
    · rw [hca.sequencer, hca.inited]; exact hi.sequencer
    · intro sq hsq; rw [hca.sequencer] at hsq; exact hi.subscribed sq hsq
    · intro m1 hm1
      cases hm : w.m_mixer with
      | none => rw [hca.mixerNone hm] at hm1; cases hm1
      | some m =>
        obtain ⟨m2, hm2, _, _, e3, _⟩ := hca.mixer m hm
        rw [hm2] at hm1
        cases hm1
        rw [e3, hca.rate]
        exact hi.rate m hm
    · intro m1 hm1
      cases hm : w.m_mixer with
      | none => rw [hca.mixerNone hm] at hm1; cases hm1
      | some m =>
        obtain ⟨m2, hm2, e1, _⟩ := hca.mixer m hm
        rw [hm2] at hm1
        cases hm1
        rw [e1, hca.nextId]
        exact hi.mixerId m hm
    · intro sq hsq; rw [hca.sequencer] at hsq; rw [hca.nextId]; exact hi.sequencerId sq hsq

theorem run_inv (ops : List Op) (w w1 : World) (hi : Inv w) (h : run w ops = some w1) :
    Inv w1 := by
  induction ops generalizing w with
  | nil =>
    simp only [run, Option.some.injEq] at h
    rw [← h]; exact hi
  | cons op rest ih =>
    cases hs : step w op with
    | none => simp [run, hs] at h
    | some w2 =>
      simp only [run, hs] at h
      exact ih w2 (step_inv w w2 op hi hs) h

/-- The allocator never goes back. -/
theorem step_nextId (w w1 : World) (op : Op) (h : step w op = some w1) :
    w.nextId ≤ w1.nextId := by
  rcases step_cases w w1 op h with ⟨he, _⟩ | ⟨b, sr, lag, _, _, _, hr⟩ |
    ⟨b, _, _, _, _, h2, _⟩ | ⟨bf, _, hb⟩ | ⟨l, _, hca⟩
  · rw [he]
  · rw [hr.nextId]; exact Nat.le_add_right _ _
  · rw [h2]
  · rw [hb.nextId]
  · rw [hca.nextId]

theorem run_nextId (ops : List Op) (w w1 : World) (h : run w ops = some w1) :
    w.nextId ≤ w1.nextId := by
  induction ops generalizing w with
  | nil =>
    simp only [run, Option.some.injEq] at h
    rw [h]
  | cons op rest ih =>
    cases hs : step w op with
    | none => simp [run, hs] at h
    | some w2 =>
      simp only [run, hs] at h
      exact Nat.le_trans (step_nextId w w2 op hs) (ih w2 h)

/-! ## The claims -/

/-- C1: on an engine that is already initialized, `init` with any arguments
returns Ok and leaves the engine as it was: the same Mixer, the same
Sequencer, the same source bound on every buffer, in fact the same state. -/
theorem init_idempotent (w : World) (sr : Int) (lag : Nat) (h : isInited w = true) :
    ∃ w1, init w sr lag = some (RetCode.Ok, w1) ∧ mixer w1 = mixer w ∧
      sequencer w1 = sequencer w ∧ (∀ b, (w1.buffers b).source = (w.buffers b).source) ∧
      w1.m_synthesizerController = w.m_synthesizerController ∧ w1.nextId = w.nextId ∧
      w1 = w := by
  refine ⟨w, ?_, rfl, rfl, fun _ => rfl, rfl, rfl, rfl⟩
  simp only [isInited] at h
  simp [init, isInited, h]

theorem init_idempotent_witness :
    isInited engineRunning = true ∧
    ∃ w1, init engineRunning 48000 512 = some (RetCode.Ok, w1) ∧ mixer w1 = mixer engineRunning ∧
      sequencer w1 = sequencer engineRunning ∧
      (∀ b, (w1.buffers b).source = (engineRunning.buffers b).source) ∧
      w1.m_synthesizerController = engineRunning.m_synthesizerController ∧
      w1.nextId = engineRunning.nextId ∧ w1 = engineRunning :=
  ⟨rfl, init_idempotent engineRunning 48000 512 rfl⟩

/-- C2: on an uninitialized engine with no buffer attached, `init` returns
InternalError and changes nothing: still not initialized, no Mixer or
Sequencer created, sample rate as before, nothing sent on `initChanged`. -/
theorem init_without_buffer (w : World) (sr : Int) (lag : Nat)
    (h1 : isInited w = false) (h2 : buffer w = none) :
    ∃ w1, init w sr lag = some (RetCode.InternalError, w1) ∧ isInited w1 = false ∧
      mixer w1 = mixer w ∧ sequencer w1 = sequencer w ∧ w1.nextId = w.nextId ∧
      sampleRate w1 = sampleRate w ∧ w1.m_initChanged = w.m_initChanged ∧ w1 = w := by
  refine ⟨w, ?_, h1, rfl, rfl, rfl, rfl, rfl, rfl⟩
  simp only [isInited, buffer] at h1 h2
  simp [init, isInited, h1, h2]

theorem init_without_buffer_witness :
    isInited engine0 = false ∧ buffer engine0 = none ∧
    ∃ w1, init engine0 44100 256 = some (RetCode.InternalError, w1) ∧ isInited w1 = false ∧
      mixer w1 = mixer engine0 ∧ sequencer w1 = sequencer engine0 ∧ w1.nextId = engine0.nextId ∧
      sampleRate w1 = sampleRate engine0 ∧ w1.m_initChanged = engine0.m_initChanged ∧
      w1 = engine0 :=
  ⟨rfl, rfl, init_without_buffer engine0 44100 256 rfl rfl⟩

/-- C3: on an uninitialized engine with buffer `b` attached, `init(sr, lag)`
returns Ok and afterwards the engine is initialized; its Sequencer and Mixer
are newly constructed (their identities are taken from the allocator, hence
differ from every Mixer and Sequencer of any earlier state of the run that
led here, such as the ones of an `init` undone by `deinit`); the Mixer's clock
is the new Sequencer's clock, the buffer's source is the new Mixer's mixed
source, the buffer's minimum sample lag is `lag` and the Mixer's sample rate
is `sr` (converted to unsigned as C++ does on the call, which leaves every
non-negative `sr` as it is). -/
theorem init_builds_engine (w : World) (b : ObjId) (sr : Int) (lag : Nat)
    (h1 : isInited w = false) (h2 : buffer w = some b) :
    ∃ w1 sq m, init w sr lag = some (RetCode.Ok, w1) ∧ isInited w1 = true ∧
      sequencer w1 = some sq ∧ mixer w1 = some m ∧
      w.nextId ≤ sq.id ∧ w.nextId ≤ m.id ∧
      (∀ w0 ops m0, run w0 ops = some w → mixer w0 = some m0 → m0.id < w0.nextId →
        m0.id ≠ m.id) ∧
      (∀ w0 ops sq0, run w0 ops = some w → sequencer w0 = some sq0 → sq0.id < w0.nextId →
        sq0.id ≠ sq.id) ∧
      m.clock = some sq.clock ∧
      (w1.buffers b).source = some m.mixedSource ∧
      (w1.buffers b).minSampleLag = lag ∧
      m.sampleRate = toUInt32 sr ∧
      (0 ≤ sr → sr < 4294967296 → (m.sampleRate : Int) = sr) := by
  simp only [isInited, buffer] at h1 h2
  obtain ⟨w1, hw1, hr⟩ := init_spec w b sr lag h1 h2
  obtain ⟨m, hm, e1, e2, e3, _, _, _⟩ := hr.mixer
  refine ⟨w1, _, m, hw1, hr.inited, hr.sequencer, hm, Nat.le_refl _, ?_, ?_, ?_, ?_, ?_, ?_, e3,
    fun h0 h3 => by rw [e3]; exact toUInt32_of_nonneg sr h0 h3⟩
  · rw [e1]; exact Nat.le_add_right _ _
  · intro w0 ops m0 hrun _ hlt
    have := run_nextId ops w0 w hrun
    rw [e1]
    simp only [ObjId] at *; omega
  · intro w0 ops sq0 hrun _ hlt
    have := run_nextId ops w0 w hrun
    show sq0.id ≠ w.nextId
    simp only [ObjId] at *; omega
  · rw [e2]
  · rw [hr.buffers, Function.update_same, Mixer.mixedSource, e1]
  · rw [hr.buffers, Function.update_same]

theorem init_builds_engine_witness :
    isInited engineStopped = false ∧ buffer engineStopped = some 0 ∧
    ∃ w1 sq m, init engineStopped 48000 512 = some (RetCode.Ok, w1) ∧ isInited w1 = true ∧
      sequencer w1 = some sq ∧ mixer w1 = some m ∧
      engineStopped.nextId ≤ sq.id ∧ engineStopped.nextId ≤ m.id ∧
      (∀ w0 ops m0, run w0 ops = some engineStopped → mixer w0 = some m0 →
        m0.id < w0.nextId → m0.id ≠ m.id) ∧
      (∀ w0 ops sq0, run w0 ops = some engineStopped → sequencer w0 = some sq0 →
        sq0.id < w0.nextId → sq0.id ≠ sq.id) ∧
      m.clock = some sq.clock ∧
      (w1.buffers 0).source = some m.mixedSource ∧
      (w1.buffers 0).minSampleLag = 512 ∧
      m.sampleRate = toUInt32 48000 ∧
      (0 ≤ (48000 : Int) → (48000 : Int) < 4294967296 → (m.sampleRate : Int) = 48000) :=
  ⟨rfl, rfl, init_builds_engine engineStopped 0 48000 512 rfl rfl⟩

/-- C4, evaluated on the code: on an initialized engine with no buffer
attached `deinit` dereferences the absent buffer (line 98) and has no
result, so the Mixer and the Sequencer are not released, initialized is not
reset and nothing is sent; `engineDetached`, reached by
`setAudioBuffer(b)`, `init`, `setAudioBuffer(nullptr)`, is such an engine.
On an initialized engine with its buffer `b` attached `deinit` sets the
buffer's source to "no source", releases the Mixer and the Sequencer, sets
initialized to false and sends exactly one value, `false`, on `initChanged`;
on an uninitialized engine `deinit` changes nothing and sends nothing. -/
theorem deinit_spec (w : World) :
    (isInited w = true → buffer w = none → deinit w = none) ∧
    (isInited engineDetached = true ∧ buffer engineDetached = none ∧
      (mixer engineDetached).isSome = true ∧ (sequencer engineDetached).isSome = true ∧
      deinit engineDetached = none) ∧
    (∀ b, isInited w = true → buffer w = some b →
      ∃ w1, deinit w = some w1 ∧ (w1.buffers b).source = none ∧
        mixer w1 = none ∧ sequencer w1 = none ∧ isInited w1 = false ∧
        w1.m_initChanged = w.m_initChanged ++ [false] ∧
        buffer w1 = some b ∧ sampleRate w1 = sampleRate w) ∧
    (isInited w = false → deinit w = some w) := by
  refine ⟨?_, ⟨rfl, rfl, rfl, rfl, rfl⟩, ?_, ?_⟩
  · intro h1 h2
    simp only [isInited, buffer] at h1 h2
    simp [deinit, isInited, h1, h2]
  · intro b h1 h2
    simp only [isInited, buffer] at h1 h2
    refine ⟨_, deinit_eq_of_inited w b h1 h2, ?_, rfl, rfl, rfl, rfl, h2, rfl⟩
    simp
  · intro h1
    exact deinit_eq_of_uninit w h1

theorem deinit_spec_witness :
    (isInited engineDetached = true ∧ buffer engineDetached = none ∧
      deinit engineDetached = none) ∧
    (isInited engineRunning = true ∧ buffer engineRunning = some 0 ∧
      ∃ w1, deinit engineRunning = some w1 ∧ (w1.buffers 0).source = none ∧
        mixer w1 = none ∧ sequencer w1 = none ∧ isInited w1 = false ∧
        w1.m_initChanged = engineRunning.m_initChanged ++ [false] ∧
        buffer w1 = some 0 ∧ sampleRate w1 = sampleRate engineRunning) ∧
    (isInited engine0 = false ∧ deinit engine0 = some engine0) :=
  ⟨⟨rfl, rfl, (deinit_spec engineDetached).1 rfl rfl⟩,
   ⟨rfl, rfl, (deinit_spec engineRunning).2.2.1 0 rfl rfl⟩,
   rfl, (deinit_spec engine0).2.2.2 rfl⟩

/-! ### Notifications -/

/-- Every call appends to `initChanged` the new value of `isInited()` if the
call changed it, and nothing otherwise. -/
theorem step_initChanged (w w1 : World) (op : Op) (h : step w op = some w1) :
    w1.m_initChanged = w.m_initChanged ++ transitions w.m_inited [w1.m_inited] := by
  rcases step_cases w w1 op h with ⟨he, _⟩ | ⟨b, sr, lag, _, h1, _, hr⟩ |
    ⟨b, _, h1, _, _, _, h3, h4, _⟩ | ⟨bf, _, hb⟩ | ⟨l, _, hca⟩
  · rw [he]; simp [transitions]
  · rw [hr.initChanged, hr.inited, h1]; simp [transitions]
  · rw [h4, h3, h1]; simp [transitions]
  · rw [hb.initChanged, hb.inited]; simp [transitions]
  · rw [hca.initChanged, hca.inited]; simp [transitions]

theorem transitions_cons (prev v : Bool) (rest : List Bool) :
    transitions prev (v :: rest) = transitions prev [v] ++ transitions v rest := by
  by_cases hv : v = prev <;> simp [transitions, hv]

theorem run_initChanged (ops : List Op) (w w1 : World) (h : run w ops = some w1) :
    w1.m_initChanged = w.m_initChanged ++ transitions (isInited w) (isInitedTrace w ops) := by
  induction ops generalizing w with
  | nil =>
    simp only [run, Option.some.injEq] at h
    subst h
    simp [isInitedTrace, transitions]
  | cons op rest ih =>
    cases hs : step w op with
    | none => simp [run, hs] at h
    | some w2 =>
      simp only [run, hs] at h
      rw [ih w2 h, step_initChanged w w2 op hs]
      simp only [isInitedTrace, hs, isInited]
      rw [transitions_cons w.m_inited w2.m_inited (isInitedTrace w2 rest), List.append_assoc]

/-- A sequence of `init` and `deinit` calls always runs to its end when the
engine starts with a buffer attached whenever it is initialized. -/
theorem run_lifecycle_total (ops : List Op) (w : World)
    (hops : ∀ op ∈ ops, op.isLifecycle = true)
    (hbuf : w.m_inited = true → w.m_buffer ≠ none) : ∃ w1, run w ops = some w1 := by
  induction ops generalizing w with
  | nil => exact ⟨w, rfl⟩
  | cons op rest ih =>
    have hrest : ∀ o ∈ rest, o.isLifecycle = true :=
      fun o ho => hops o (List.mem_cons_of_mem _ ho)
    have hop := hops op (List.mem_cons_self _ _)
    have hstep : ∃ w2, step w op = some w2 := by
      cases op with
      | init sr lag =>
        rcases init_cases w sr lag with ⟨_, he⟩ | ⟨_, _, he⟩ | ⟨_, w2, _, _, he, _⟩
        · exact ⟨w, by simp only [step, he, Option.map_some']⟩
        · exact ⟨w, by simp only [step, he, Option.map_some']⟩
        · exact ⟨w2, by simp only [step, he, Option.map_some']⟩
      | deinit =>
        cases h1 : w.m_inited with
        | false => exact ⟨w, deinit_eq_of_uninit w h1⟩
        | true =>
          cases h2 : w.m_buffer with
          | none => exact absurd h2 (hbuf h1)
          | some b => exact ⟨_, deinit_eq_of_inited w b h1 h2⟩
      | setAudioBuffer bf => simp [Op.isLifecycle] at hop
      | startSynthesizer s => simp [Op.isLifecycle] at hop
      | audioTrackAdded t => simp [Op.isLifecycle] at hop
    obtain ⟨w2, hs⟩ := hstep
    have hbuf2 : w2.m_inited = true → w2.m_buffer ≠ none := by
      rcases step_cases w w2 op hs with ⟨he, _⟩ | ⟨b, sr, lag, _, _, _, hr⟩ |
        ⟨b, _, _, _, _, _, h3, _⟩ | ⟨bf, hbf, _⟩ | ⟨l, hne, hca⟩
      · rw [he]; exact hbuf
      · intro _; rw [hr.buffer]; simp
      · intro hc; rw [h3] at hc; cases hc
      · rw [hbf] at hop; simp [Op.isLifecycle] at hop
      · rw [hca.inited, hca.buffer]; exact hbuf
    obtain ⟨w1, hw1⟩ := ih w2 hrest hbuf2
    exact ⟨w1, by simp only [run, hs, hw1]⟩

/-- C5: a sequence of `init` and `deinit` calls (any arguments, buffer
attached or not) runs to its end, and the values it sends on `initChanged`
are exactly the changes of `isInited()`: one entry, the new value, for each
call that changes `isInited()`, nothing for the calls that do not. -/
theorem initChanged_exact (w : World) (ops : List Op)
    (hops : ∀ op ∈ ops, op.isLifecycle = true)
    (hbuf : isInited w = true → buffer w ≠ none) :
    ∃ w1, run w ops = some w1 ∧
      w1.m_initChanged = w.m_initChanged ++ transitions (isInited w) (isInitedTrace w ops) := by
  obtain ⟨w1, hw1⟩ := run_lifecycle_total ops w hops hbuf
  exact ⟨w1, hw1, run_initChanged ops w w1 hw1⟩

theorem initChanged_exact_witness :
    ∃ w1, run (setAudioBuffer engine0 (some 0))
        [Op.init 44100 256, Op.init 48000 512, Op.deinit, Op.deinit, Op.init 22050 64] = some w1 ∧
      w1.m_initChanged = (setAudioBuffer engine0 (some 0)).m_initChanged ++
        transitions (isInited (setAudioBuffer engine0 (some 0)))
          (isInitedTrace (setAudioBuffer engine0 (some 0))
            [Op.init 44100 256, Op.init 48000 512, Op.deinit, Op.deinit, Op.init 22050 64]) :=
  initChanged_exact (setAudioBuffer engine0 (some 0))
    [Op.init 44100 256, Op.init 48000 512, Op.deinit, Op.deinit, Op.init 22050 64]
    (by decide) (by intro h; cases h)

/-- C6: in every state reached from the freshly constructed engine by any
sequence of calls, the Mixer exists iff `isInited()` is true, and the
Sequencer exists iff `isInited()` is true. -/
theorem mixer_sequencer_iff_inited (n : ObjId) (bufs : ObjId → AudioBuffer)
    (srcs : ObjId → AudioSource) (l : List ObjId) (p : String → List String)
    (ops : List Op) (w : World) (h : run (World.fresh n bufs srcs l p) ops = some w) :
    ((mixer w).isSome = true ↔ isInited w = true) ∧
    ((sequencer w).isSome = true ↔ isInited w = true) := by
  have hi := run_inv ops _ w (fresh_inv n bufs srcs l p) h
  simp only [mixer, sequencer, isInited]
  rw [hi.mixer, hi.sequencer]
  exact ⟨Iff.rfl, Iff.rfl⟩

theorem mixer_sequencer_iff_inited_witness :
    ((mixer engineStopped).isSome = true ↔ isInited engineStopped = true) ∧
    ((sequencer engineStopped).isSome = true ↔ isInited engineStopped = true) :=
  mixer_sequencer_iff_inited 10 (fun _ => { source := none, minSampleLag := 0 })
    (fun _ => { name := "fluid", sampleRate := 0, soundFonts := [] }) [7]
    (fun _ => ["default.sf2"])
    [Op.setAudioBuffer (some 0), Op.init 44100 256, Op.deinit] engineStopped rfl

/-! ### Sample rate -/

theorem step_sampleRate (w w1 : World) (op : Op) (h : step w op = some w1) :
    sampleRate w1 =
      match buildingInit w op with
      | some sr => toUInt32 sr
      | none => sampleRate w := by
  rcases step_cases w w1 op h with ⟨he, hop⟩ | ⟨b, sr, lag, hop, h1, h2, hr⟩ |
    ⟨b, hop, _, _, _, _, _, _, h5, _⟩ | ⟨bf, hop, hb⟩ | ⟨l, hne, hca⟩
  · rw [he]
    rcases hop with hop | ⟨sr, lag, hop, hc | hc⟩
    · rw [hop]; rfl
    · rw [hop]; simp [buildingInit, isInited, hc]
    · rw [hop]; simp [buildingInit, buffer, hc]
  · rw [hop]
    simp only [buildingInit, isInited, buffer, h1, h2]
    exact hr.rate
  · rw [hop]; exact h5
  · rw [hop]; exact hb.rate
  · cases op with
    | init sr lag => exact absurd rfl (hne sr lag)
    | deinit => exact hca.rate
    | setAudioBuffer bf => exact hca.rate
    | startSynthesizer s => exact hca.rate
    | audioTrackAdded t => exact hca.rate

theorem run_sampleRate (ops : List Op) (w w1 : World) (h : run w ops = some w1) :
    sampleRate w1 =
      match lastBuildingInit w ops with
      | some sr => toUInt32 sr
      | none => sampleRate w := by
  induction ops generalizing w with
  | nil =>
    simp only [run, Option.some.injEq] at h
    subst h
    rfl
  | cons op rest ih =>
    cases hs : step w op with
    | none => simp [run, hs] at h
    | some w2 =>
      simp only [run, hs] at h
      rw [ih w2 h]
      simp only [lastBuildingInit, hs]
      cases lastBuildingInit w2 rest with
      | some sr => rfl
      | none => exact step_sampleRate w w2 op hs

/-- C7, as stated, fails: an `init` that returns early does not store its
argument.  On the fresh engine `init(44100, 256)` with no buffer attached
leaves `sampleRate()` at 0; after a successful `init(44100, 256)` a second
`init(48000, 256)` leaves it at 44100. -/
theorem sampleRate_last_init_counterexample :
    (run engine0 [Op.init 44100 256]).map sampleRate = some 0 ∧
    claimedSampleRate [Op.init 44100 256] = 44100 ∧
    (run engine0 [Op.setAudioBuffer (some 0), Op.init 44100 256, Op.init 48000 256]).map
      sampleRate = some 44100 ∧
    claimedSampleRate [Op.setAudioBuffer (some 0), Op.init 44100 256, Op.init 48000 256]
      = 48000 :=
  ⟨rfl, rfl, rfl, rfl⟩

/-- C7, amended: after any sequence of calls on a fresh engine,
`sampleRate()` is the `sampleRate` argument (as an unsigned value) of the
most recent `init` call made while the engine was not initialized and had a
buffer attached, and 0 if there has been no such call. -/
theorem sampleRate_last_building_init (n : ObjId) (bufs : ObjId → AudioBuffer)
    (srcs : ObjId → AudioSource) (l : List ObjId) (p : String → List String)
    (ops : List Op) (w : World) (h : run (World.fresh n bufs srcs l p) ops = some w) :
    sampleRate w =
      match lastBuildingInit (World.fresh n bufs srcs l p) ops with
      | some sr => toUInt32 sr
      | none => 0 :=
  run_sampleRate ops _ w h

theorem sampleRate_last_building_init_witness :
    sampleRate (engineAfter [Op.init 8000 16, Op.setAudioBuffer (some 0), Op.init 44100 256,
        Op.init 48000 256]) =
      match lastBuildingInit engine0 [Op.init 8000 16, Op.setAudioBuffer (some 0),
          Op.init 44100 256, Op.init 48000 256] with
      | some sr => toUInt32 sr
      | none => 0 :=
  sampleRate_last_building_init 10 (fun _ => { source := none, minSampleLag := 0 })
    (fun _ => { name := "fluid", sampleRate := 0, soundFonts := [] }) [7]
    (fun _ => ["default.sf2"])
    [Op.init 8000 16, Op.setAudioBuffer (some 0), Op.init 44100 256, Op.init 48000 256]
    (engineAfter [Op.init 8000 16, Op.setAudioBuffer (some 0), Op.init 44100 256,
        Op.init 48000 256]) rfl

/-! ### Track-added events -/

theorem sendAudioTracksAdded_spec (events : List Track) (w : World) (hi : Inv w)
    (h1 : w.m_inited = true) :
    ∃ w1, sendAudioTracksAdded w events = some w1 ∧
      ChannelsAdded w w1 (events.map Track.audioSource) := by
  induction events generalizing w with
  | nil => exact ⟨w, rfl, ChannelsAdded.refl w⟩
  | cons t rest ih =>
    have hsq : w.m_sequencer.isSome = true := by rw [hi.sequencer, h1]
    have hmx : w.m_mixer.isSome = true := by rw [hi.mixer, h1]
    obtain ⟨sq, hsq⟩ := Option.isSome_iff_exists.mp hsq
    obtain ⟨m, hm⟩ := Option.isSome_iff_exists.mp hmx
    have hsub := hi.subscribed sq hsq
    rcases onAudioTrackAdded_cases w t with ⟨hn, _⟩ | ⟨w2, hw2, hca⟩
    · rw [hm] at hn; cases hn
    · have hsend : sendAudioTrackAdded w t = some w2 := by
        simp only [sendAudioTrackAdded, hsq, hsub, deliverTo, hw2]
      have hi2 : Inv w2 := step_inv w w2 (Op.audioTrackAdded t) hi hsend
      obtain ⟨w1, hw1, hca1⟩ := ih w2 hi2 (by rw [hca.inited, h1])
      refine ⟨w1, ?_, ?_⟩
      · simp only [sendAudioTracksAdded, hsend, hw1]
      · exact ChannelsAdded.trans hca hca1

/-- C8, as stated, fails: the subscription adds a channel for every event,
also when the event announces a track instance that is already wired.  On
the running engine, announcing the same track twice adds two channels, while
one distinct track instance was announced. -/
theorem track_announced_twice_counterexample :
    isInited engineRunning = true ∧
    (sendAudioTracksAdded engineRunning [track20, track20]).map channelCount
      = some (channelCount engineRunning + 2) ∧
    ([track20, track20].dedup).length = 1 :=
  ⟨rfl, rfl, by decide⟩

/-- C8, amended: on an initialized engine (any state reached from the fresh
engine in which `isInited()` holds) every sequence of track-added events is
delivered, and the subscription installed by `init` adds exactly one Mixer
channel per delivered event, for the source of the announced track, in order
of delivery; the number of channels added is the number of events. -/
theorem track_added_one_channel_per_event (n : ObjId) (bufs : ObjId → AudioBuffer)
    (srcs : ObjId → AudioSource) (l : List ObjId) (p : String → List String)
    (ops : List Op) (w : World) (events : List Track)
    (h : run (World.fresh n bufs srcs l p) ops = some w) (h1 : isInited w = true) :
    ∃ w1 m m1, mixer w = some m ∧ sendAudioTracksAdded w events = some w1 ∧
      mixer w1 = some m1 ∧
      m1.channels.map Prod.snd = m.channels.map Prod.snd ++ events.map Track.audioSource ∧
      channelCount w1 = channelCount w + events.length := by
  have hi := run_inv ops _ w (fresh_inv n bufs srcs l p) h
  simp only [isInited] at h1
  obtain ⟨w1, hw1, hca⟩ := sendAudioTracksAdded_spec events w hi h1
  have hmx : w.m_mixer.isSome = true := by rw [hi.mixer, h1]
  obtain ⟨m, hm⟩ := Option.isSome_iff_exists.mp hmx
  obtain ⟨m1, hm1, _, _, _, _, e5, e6⟩ := hca.mixer m hm
  refine ⟨w1, m, m1, hm, hw1, hm1, e5, ?_⟩
  simp only [channelCount, mixer, hm, hm1, e6, List.length_map]

theorem track_added_one_channel_per_event_witness :
    ∃ w1 m m1, mixer engineRunning = some m ∧
      sendAudioTracksAdded engineRunning [track20, track20] = some w1 ∧
      mixer w1 = some m1 ∧
      m1.channels.map Prod.snd = m.channels.map Prod.snd ++
        [track20, track20].map Track.audioSource ∧
      channelCount w1 = channelCount engineRunning + [track20, track20].length :=
  track_added_one_channel_per_event 10 (fun _ => { source := none, minSampleLag := 0 })
    (fun _ => { name := "fluid", sampleRate := 0, soundFonts := [] }) [7]
    (fun _ => ["default.sf2"])
    [Op.setAudioBuffer (some 0), Op.init 44100 256] engineRunning [track20, track20] rfl rfl

/-! ### Synthesizers and buffer -/

/-- C9: a successful `init(sr, lag)` from the uninitialized state leaves
`sampleRate()` equal to `sr` (converted to unsigned, which leaves every
non-negative `sr` as it is), a Mixer with exactly one channel per
synthesizer of the register, in register order, every synthesizer of the
register at sample rate `sr`, and has called `setSampleRate(sr)` on each of
them, in register order.  On every state with a Mixer, `startSynthesizer(s)`
makes exactly one call `s->setSampleRate(sampleRate())`, which puts `s` at
the engine's rate, then hands `s` to the Mixer's `addChannel` and returns the
ChannelID that gives, `s` being the Mixer's newest channel.  On every state
reached from the fresh engine `s` is at the engine's `sampleRate()`
afterwards. -/
theorem init_starts_synthesizers (w : World) :
    (∀ b sr lag, isInited w = false → buffer w = some b →
      ∃ w1 m, init w sr lag = some (RetCode.Ok, w1) ∧ sampleRate w1 = toUInt32 sr ∧
        (0 ≤ sr → sr < 4294967296 → (sampleRate w1 : Int) = sr) ∧
        mixer w1 = some m ∧ m.channels.length = w.synthesizers.length ∧
        m.channels.map Prod.snd = w.synthesizers ∧
        (∀ s ∈ w.synthesizers, (w1.sources s).sampleRate = toUInt32 sr) ∧
        w1.setSampleRateCalls =
          w.setSampleRateCalls ++ w.synthesizers.map (fun s => (s, toUInt32 sr))) ∧
    (∀ m s, mixer w = some m →
      ∃ w1 m1, startSynthesizer w s =
          some ((m.addChannel (synthesizerSetSampleRate w s (sampleRate w)) s).1, w1) ∧
        w1.setSampleRateCalls = w.setSampleRateCalls ++ [(s, sampleRate w)] ∧
        ((synthesizerSetSampleRate w s (sampleRate w)).sources s).sampleRate = sampleRate w ∧
        w1.sources = (m.addChannel (synthesizerSetSampleRate w s (sampleRate w)) s).2.2.sources ∧
        mixer w1 = some m1 ∧
        m1 = (m.addChannel (synthesizerSetSampleRate w s (sampleRate w)) s).2.1 ∧
        m1.channels = m.channels ++ [(m.nextChannel, s)] ∧
        sampleRate w1 = sampleRate w) ∧
    (∀ n bufs srcs l p ops m s, run (World.fresh n bufs srcs l p) ops = some w →
      mixer w = some m →
      ∃ w1 m1, startSynthesizer w s =
          some ((m.addChannel (synthesizerSetSampleRate w s (sampleRate w)) s).1, w1) ∧
        w1.setSampleRateCalls = w.setSampleRateCalls ++ [(s, sampleRate w)] ∧
        (w1.sources s).sampleRate = sampleRate w ∧ mixer w1 = some m1 ∧
        m1.channels = m.channels ++ [(m.nextChannel, s)] ∧
        sampleRate w1 = sampleRate w) := by
  refine ⟨?_, ?_, ?_⟩
  · intro b sr lag h1 h2
    simp only [isInited, buffer] at h1 h2
    obtain ⟨w1, hw1, hr⟩ := init_spec w b sr lag h1 h2
    obtain ⟨m, hm, _, _, _, _, e5, e6⟩ := hr.mixer
    refine ⟨w1, m, hw1, hr.rate, ?_, hm, e6, e5, hr.sources, hr.calls⟩
    intro h0 h3
    simp only [sampleRate]
    rw [hr.rate]
    exact toUInt32_of_nonneg sr h0 h3
  · intro m s hm
    simp only [mixer] at hm
    refine ⟨_, _, startSynthesizer_eq w m s hm, rfl, ?_, rfl, rfl, rfl, rfl, rfl⟩
    simp [synthesizerSetSampleRate, setSourceSampleRate]
  · intro n bufs srcs l p ops m s h hm
    have hi := run_inv ops _ w (fresh_inv n bufs srcs l p) h
    simp only [mixer] at hm
    have hrate := hi.rate m hm
    refine ⟨_, _, startSynthesizer_eq w m s hm, rfl, ?_, rfl, rfl, rfl⟩
    simp [setSourceSampleRate, sampleRate, hrate]

theorem init_starts_synthesizers_witness :
    (isInited engineStopped = false ∧ buffer engineStopped = some 0 ∧
      ∃ w1 m, init engineStopped 48000 512 = some (RetCode.Ok, w1) ∧
        sampleRate w1 = toUInt32 48000 ∧
        (0 ≤ (48000 : Int) → (48000 : Int) < 4294967296 → (sampleRate w1 : Int) = 48000) ∧
        mixer w1 = some m ∧ m.channels.length = engineStopped.synthesizers.length ∧
        m.channels.map Prod.snd = engineStopped.synthesizers ∧
        (∀ s ∈ engineStopped.synthesizers, (w1.sources s).sampleRate = toUInt32 48000) ∧
        w1.setSampleRateCalls = engineStopped.setSampleRateCalls ++
          engineStopped.synthesizers.map (fun s => (s, toUInt32 48000))) ∧
    (∃ m, mixer engineSkewed = some m ∧ m.sampleRate = 44100 ∧ sampleRate engineSkewed = 11 ∧
      ∃ w1 m1, startSynthesizer engineSkewed 8 =
          some ((m.addChannel (synthesizerSetSampleRate engineSkewed 8 (sampleRate engineSkewed))
            8).1, w1) ∧
        w1.setSampleRateCalls = engineSkewed.setSampleRateCalls ++ [(8, sampleRate engineSkewed)] ∧
        ((synthesizerSetSampleRate engineSkewed 8 (sampleRate engineSkewed)).sources 8).sampleRate
          = sampleRate engineSkewed ∧
        w1.sources = (m.addChannel
          (synthesizerSetSampleRate engineSkewed 8 (sampleRate engineSkewed)) 8).2.2.sources ∧
        mixer w1 = some m1 ∧
        m1 = (m.addChannel
          (synthesizerSetSampleRate engineSkewed 8 (sampleRate engineSkewed)) 8).2.1 ∧
        m1.channels = m.channels ++ [(m.nextChannel, 8)] ∧
        sampleRate w1 = sampleRate engineSkewed) ∧
    (∃ m, mixer engineRunning = some m ∧
      ∃ w1 m1, startSynthesizer engineRunning 8 =
          some ((m.addChannel (synthesizerSetSampleRate engineRunning 8
            (sampleRate engineRunning)) 8).1, w1) ∧
        w1.setSampleRateCalls = engineRunning.setSampleRateCalls ++
          [(8, sampleRate engineRunning)] ∧
        (w1.sources 8).sampleRate = sampleRate engineRunning ∧ mixer w1 = some m1 ∧
        m1.channels = m.channels ++ [(m.nextChannel, 8)] ∧
        sampleRate w1 = sampleRate engineRunning) :=
  ⟨⟨rfl, rfl, (init_starts_synthesizers engineStopped).1 0 48000 512 rfl rfl⟩,
   ⟨_, rfl, rfl, rfl, (init_starts_synthesizers engineSkewed).2.1 _ 8 rfl⟩,
   ⟨_, rfl, (init_starts_synthesizers engineRunning).2.2 10
      (fun _ => { source := none, minSampleLag := 0 })
      (fun _ => { name := "fluid", sampleRate := 0, soundFonts := [] }) [7]
      (fun _ => ["default.sf2"])
      [Op.setAudioBuffer (some 0), Op.init 44100 256] _ 8 rfl rfl⟩⟩

/-- C10: `setAudioBuffer(bf)` makes `buffer()` return `bf`; if a Mixer
exists and `bf` is a buffer, its source becomes that Mixer's mixed source;
if no Mixer exists no buffer's source is touched; no other buffer is ever
touched; `isInited()`, the Mixer, the Sequencer and the sample rate are
unchanged, and nothing is sent on `initChanged`. -/
theorem setAudioBuffer_spec (w : World) (bf : Option ObjId) :
    buffer (setAudioBuffer w bf) = bf ∧
    (∀ b m, bf = some b → mixer w = some m →
      ((setAudioBuffer w bf).buffers b).source = some m.mixedSource ∧
      ((setAudioBuffer w bf).buffers b).minSampleLag = (w.buffers b).minSampleLag) ∧
    (mixer w = none → (setAudioBuffer w bf).buffers = w.buffers) ∧
    (∀ b, bf ≠ some b → (setAudioBuffer w bf).buffers b = w.buffers b) ∧
    isInited (setAudioBuffer w bf) = isInited w ∧
    mixer (setAudioBuffer w bf) = mixer w ∧
    sequencer (setAudioBuffer w bf) = sequencer w ∧
    sampleRate (setAudioBuffer w bf) = sampleRate w ∧
    (setAudioBuffer w bf).m_initChanged = w.m_initChanged := by
  have hf := setAudioBuffer_frame w bf
  refine ⟨hf.buffer, ?_, ?_, ?_, hf.inited, hf.mixer, hf.sequencer, hf.rate, hf.initChanged⟩
  · intro b m hb hm
    simp only [mixer] at hm
    subst hb
    simp [setAudioBuffer, hm, bufferSetSource]
  · intro hm
    simp only [mixer] at hm
    cases bf <;> simp [setAudioBuffer, hm]
  · intro b hb
    cases bf with
    | none => simp [setAudioBuffer]
    | some b0 =>
      have hne : b ≠ b0 := fun e => hb (by rw [e])
      cases hm : w.m_mixer with
      | none => simp [setAudioBuffer, hm]
      | some m => simp [setAudioBuffer, hm, bufferSetSource, Function.update_noteq hne]

theorem setAudioBuffer_spec_witness :
    ∃ m, mixer engineRunning = some m ∧
      ((setAudioBuffer engineRunning (some 5)).buffers 5).source = some m.mixedSource ∧
      ((setAudioBuffer engineRunning (some 5)).buffers 5).minSampleLag
        = (engineRunning.buffers 5).minSampleLag ∧
      (setAudioBuffer engine0 (some 5)).buffers = engine0.buffers ∧
      (setAudioBuffer engineRunning (some 5)).buffers 0 = engineRunning.buffers 0 :=
  ⟨_, rfl, ((setAudioBuffer_spec engineRunning (some 5)).2.1 5 _ rfl rfl).1,
    ((setAudioBuffer_spec engineRunning (some 5)).2.1 5 _ rfl rfl).2,
    (setAudioBuffer_spec engine0 (some 5)).2.2.1 rfl,
    (setAudioBuffer_spec engineRunning (some 5)).2.2.2.1 0 (by decide)⟩

end AudioEngine

namespace AudioEngine

/-! ### Detaching the buffer of an initialized engine -/

/-- C13, evaluated on the code: after attaching buffer 0, `init(44100, 256)`
and `setAudioBuffer(nullptr)` the engine is initialized with no buffer
attached (and still has its Mixer), and the `deinit` that follows
dereferences the absent buffer: it has no result. -/
theorem deinit_after_buffer_detached :
    (run engine0 [Op.setAudioBuffer (some 0), Op.init 44100 256, Op.setAudioBuffer none]).map
      (fun w => (isInited w, buffer w, (mixer w).isSome)) = some (true, none, true) ∧
    (run engine0 [Op.setAudioBuffer (some 0), Op.init 44100 256, Op.setAudioBuffer none,
      Op.deinit]).isNone = true ∧
    (run engine0 [Op.setAudioBuffer (some 0), Op.init 44100 256, Op.deinit]).isSome = true :=
  ⟨rfl, rfl, rfl⟩

end AudioEngine

namespace FluidSynth

theorem toInt32_of_lt (n : Nat) (h : n < 2147483648) : toInt32 n = n := by
  unfold toInt32
  omega

theorem toInt32_succ (n : Nat) :
    toInt32 (n + 1) = (toInt32 n + 1 + 2147483648) % 4294967296 - 2147483648 := by
  unfold toInt32
  push_cast
  omega

theorem toInt32_eq_zero (n : Nat) (h : n < 4294967296) : toInt32 n = 0 ↔ n = 0 := by
  unfold toInt32
  omega

/-- C11: `add(k, c)` appends `k` to the key list and `k * 100.0 + c` to the
pitch list, leaves every earlier entry as it was and adds exactly one entry;
`size()` goes up by one (in `int` arithmetic, and literally as long as the
new size fits an `int`); on the empty table `add(60, 50)` yields the single
entry (60, 6050), `size() == 1` and `isEmpty() == false`. -/
theorem keyTuning_add_spec {D : Type} (A : DoubleArith D) (t : KeyTuning D) (k : Int) (c : D) :
    (t.add A k c).keys = t.keys ++ [k] ∧
    (t.add A k c).pitches = t.pitches ++ [A.add (A.mul (A.ofInt k) A.hundred) c] ∧
    (∀ i, i < t.keys.length → (t.add A k c).keys[i]? = t.keys[i]?) ∧
    (∀ i, i < t.pitches.length → (t.add A k c).pitches[i]? = t.pitches[i]?) ∧
    (t.add A k c).keys.length = t.keys.length + 1 ∧
    (t.add A k c).pitches.length = t.pitches.length + 1 ∧
    (t.add A k c).size = (t.size + 1 + 2147483648) % 4294967296 - 2147483648 ∧
    (t.keys.length < 2147483647 → (t.add A k c).size = t.size + 1) ∧
    (KeyTuning.empty.add exactArith 60 50 = { keys := [60], pitches := [6050] } ∧
      (KeyTuning.empty.add exactArith 60 50).size = 1 ∧
      (KeyTuning.empty.add exactArith 60 50).isEmpty = false) := by
  refine ⟨rfl, rfl, ?_, ?_, ?_, ?_, ?_, ?_, ?_, ?_, ?_⟩
  · intro i hi
    simp only [KeyTuning.add]
    exact List.getElem?_append_left hi
  · intro i hi
    simp only [KeyTuning.add]
    exact List.getElem?_append_left hi
  · simp [KeyTuning.add]
  · simp [KeyTuning.add]
  · simp only [KeyTuning.size, KeyTuning.add, List.length_append, List.length_singleton]
    exact toInt32_succ _
  · intro h
    simp only [KeyTuning.size, KeyTuning.add, List.length_append, List.length_singleton]
    rw [toInt32_of_lt _ (by omega), toInt32_of_lt _ (by omega)]
    push_cast
    rfl
  · simp only [KeyTuning.add, KeyTuning.empty, exactArith, List.nil_append]
    norm_num
  · simp [KeyTuning.size, KeyTuning.add, KeyTuning.empty, toInt32]
  · rfl

theorem keyTuning_add_spec_witness :
    (KeyTuning.empty.add exactArith 60 50).keys.length < 2147483647 ∧
    ((KeyTuning.empty.add exactArith 60 50).add exactArith 61 0).size
      = (KeyTuning.empty.add exactArith 60 50).size + 1 :=
  ⟨by decide,
   (keyTuning_add_spec exactArith (KeyTuning.empty.add exactArith 60 50) 61 0).2.2.2.2.2.2.2.1
     (by decide)⟩

theorem applyOps_lengths {D : Type} (A : DoubleArith D) (ops : List (TuningOp D))
    (t : KeyTuning D) (h : t.keys.length = t.pitches.length) :
    (applyOps A t ops).keys.length = (applyOps A t ops).pitches.length := by
  induction ops generalizing t with
  | nil => exact h
  | cons op rest ih =>
    apply ih
    cases op with
    | add key tuning => simp [applyOp, KeyTuning.add, h]
    | reset => rfl

/-- C12: in every table reached from the empty table by `add` and `reset`
calls the key list and the pitch list have the same length, so `isEmpty()`
holds iff the table has no entry, that is iff `size() == 0` (the number of
entries being below 2^32, where the conversion to `int` wraps to 0); and
`reset()` on any table clears both lists, giving `size() == 0` and
`isEmpty() == true`. -/
theorem keyTuning_invariant {D : Type} (A : DoubleArith D) (ops : List (TuningOp D)) :
    (applyOps A KeyTuning.empty ops).keys.length
      = (applyOps A KeyTuning.empty ops).pitches.length ∧
    ((applyOps A KeyTuning.empty ops).isEmpty = true ↔
      (applyOps A KeyTuning.empty ops).keys.length = 0) ∧
    ((applyOps A KeyTuning.empty ops).keys.length < 4294967296 →
      ((applyOps A KeyTuning.empty ops).isEmpty = true ↔
        (applyOps A KeyTuning.empty ops).size = 0)) ∧
    (∀ t : KeyTuning D, t.reset.keys = [] ∧ t.reset.pitches = [] ∧ t.reset.size = 0 ∧
      t.reset.isEmpty = true) := by
  have hl := applyOps_lengths A ops KeyTuning.empty rfl
  have hiff : (applyOps A KeyTuning.empty ops).isEmpty = true ↔
      (applyOps A KeyTuning.empty ops).keys.length = 0 := by
    generalize applyOps A KeyTuning.empty ops = t at hl
    simp only [KeyTuning.isEmpty, Bool.and_eq_true, List.isEmpty_iff]
    constructor
    · intro h
      rw [h.1]; rfl
    · intro h
      have hk : t.keys = [] := List.length_eq_zero.mp h
      have hp : t.pitches = [] := List.length_eq_zero.mp (by rw [← hl]; exact h)
      exact ⟨hk, hp⟩
  refine ⟨hl, hiff, ?_, ?_⟩
  · intro hlt
    rw [hiff, KeyTuning.size, toInt32_eq_zero _ hlt]
  · intro t
    exact ⟨rfl, rfl, by simp [KeyTuning.size, KeyTuning.reset, toInt32], rfl⟩

theorem keyTuning_invariant_witness :
    (applyOps exactArith KeyTuning.empty
        [TuningOp.add 60 50, TuningOp.reset, TuningOp.add 61 0]).keys.length < 4294967296 ∧
    ((applyOps exactArith KeyTuning.empty
        [TuningOp.add 60 50, TuningOp.reset, TuningOp.add 61 0]).isEmpty = true ↔
      (applyOps exactArith KeyTuning.empty
        [TuningOp.add 60 50, TuningOp.reset, TuningOp.add 61 0]).size = 0) :=
  ⟨by simp [applyOps, applyOp, KeyTuning.add, KeyTuning.reset],
   (keyTuning_invariant exactArith
      [TuningOp.add 60 50, TuningOp.reset, TuningOp.add 61 0]).2.2.1
      (by simp [applyOps, applyOp, KeyTuning.add, KeyTuning.reset])⟩

end FluidSynth

namespace BendGridCanvas

/-! ## BendGridCanvas: element accesses -/

theorem readAt_natCast (ps : List CurvePoint) (n : Nat) (h : n < ps.length) :
    readAt ps (n : Int) = Except.ok ps[n] := by
  simp [readAt, List.getElem?_eq_getElem h]

theorem readAt_pred (ps : List CurvePoint) (n : Nat) (h : n < ps.length) (h1 : 1 ≤ n) :
    readAt ps ((n : Int) - 1) = Except.ok ps[n - 1] := by
  have e : (n : Int) - 1 = ((n - 1 : Nat) : Int) := by omega
  rw [e]
  exact readAt_natCast ps (n - 1) (by omega)

theorem readAt_succ (ps : List CurvePoint) (n : Nat) (h : n + 1 < ps.length) :
    readAt ps ((n : Int) + 1) = Except.ok ps[n + 1] := by
  have e : (n : Int) + 1 = ((n + 1 : Nat) : Int) := by omega
  rw [e]
  exact readAt_natCast ps (n + 1) h

theorem readAt_neg (ps : List CurvePoint) (i : Int) (h : i < 0) :
    readAt ps i = Except.error i := by
  simp [readAt, Int.not_le.mpr h]

theorem writePitchAt_natCast (ps : List CurvePoint) (n : Nat) (v : Int) (h : n < ps.length) :
    writePitchAt ps (n : Int) v = Except.ok (ps.set n { ps[n] with pitch := v }) := by
  simp [writePitchAt, readAt_natCast ps n h]

theorem writeTimeAt_natCast (ps : List CurvePoint) (n : Nat) (v : Int) (h : n < ps.length) :
    writeTimeAt ps (n : Int) v = Except.ok (ps.set n { ps[n] with time := v }) := by
  simp [writeTimeAt, readAt_natCast ps n h]

/-- Writing a point that agrees with the old one under `f` leaves the list of
`f`-values as it was. -/
theorem map_set_same {β : Type} (f : CurvePoint → β) (ps : List CurvePoint) (n : Nat)
    (q : CurvePoint) (h : n < ps.length) (hq : f q = f ps[n]) :
    (ps.set n q).map f = ps.map f := by
  apply List.ext_getElem?
  intro j
  simp only [List.getElem?_map, List.getElem?_set]
  by_cases hj : n = j
  · subst hj
    simp [h, hq]
  · simp [hj]

/-- A pitch write inside the list changes nothing but pitches. -/
theorem writePitchAt_ok (ps : List CurvePoint) (n : Nat) (v : Int) (h : n < ps.length) :
    ∃ ps1, writePitchAt ps (n : Int) v = Except.ok ps1 ∧
      ps1.map withoutPitch = ps.map withoutPitch := by
  refine ⟨_, writePitchAt_natCast ps n v h, ?_⟩
  exact map_set_same withoutPitch ps n _ h rfl

theorem length_of_onlyPitch {ps ps1 : List CurvePoint}
    (h : ps1.map withoutPitch = ps.map withoutPitch) : ps1.length = ps.length := by
  have := congrArg List.length h
  simpa using this

theorem times_of_onlyPitch {ps ps1 : List CurvePoint}
    (h : ps1.map withoutPitch = ps.map withoutPitch) : times ps1 = times ps := by
  have := congrArg (List.map CurvePoint.time) h
  simpa [times, List.map_map, Function.comp_def, withoutPitch] using this

theorem generated_of_onlyPitch {ps ps1 : List CurvePoint}
    (h : ps1.map withoutPitch = ps.map withoutPitch)
    (hgen : ∀ p ∈ ps, p.generated = false) : ∀ p ∈ ps1, p.generated = false := by
  intro p hp
  have hm : withoutPitch p ∈ ps.map withoutPitch := by
    rw [← h]; exact List.mem_map_of_mem _ hp
  obtain ⟨q, hq, e⟩ := List.mem_map.mp hm
  have := congrArg CurvePoint.generated e
  simp only [withoutPitch] at this
  rw [← this]
  exact hgen q hq

/-! ## BendGridCanvas: the vertical part -/

theorem verticalLeftCheck_ok (ps : List CurvePoint) (n : Nat) (cur point : CurvePoint)
    (top : Bool) (h : n < ps.length) :
    ∃ b, verticalLeftCheck ps (n : Int) cur point top = Except.ok b := by
  unfold verticalLeftCheck
  by_cases h1 : 1 ≤ n
  · have hge : (n : Int) - 1 ≥ 0 := by omega
    rw [if_pos hge, readAt_pred ps n h h1]
    cases top <;> simp only [if_true, if_false, Bool.false_eq_true] <;> split <;>
      exact ⟨_, rfl⟩
  · have hge : ¬ ((n : Int) - 1 ≥ 0) := by omega
    rw [if_neg hge]
    exact ⟨_, rfl⟩

theorem verticalRightCheck_ok (ps : List CurvePoint) (n : Nat) (cur point : CurvePoint)
    (top : Bool) :
    ∃ b, verticalRightCheck ps (n : Int) cur point top = Except.ok b := by
  unfold verticalRightCheck
  by_cases h1 : n + 1 < ps.length
  · have hlt : (n : Int) + 1 < (ps.length : Int) := by omega
    rw [if_pos hlt, readAt_succ ps n h1]
    cases top <;> simp only [if_true, if_false, Bool.false_eq_true] <;> split <;>
      exact ⟨_, rfl⟩
  · have hlt : ¬ ((n : Int) + 1 < (ps.length : Int)) := by omega
    rw [if_neg hlt]
    exact ⟨_, rfl⟩

theorem isNextDashed_ok (ps : List CurvePoint) (n : Nat) :
    ∃ b, isNextDashed ps (n : Int) = Except.ok b ∧ (b = true → n + 1 < ps.length) := by
  unfold isNextDashed
  by_cases h1 : n + 1 < ps.length
  · have hlt : (n : Int) + 1 < (ps.length : Int) := by omega
    rw [if_pos hlt, readAt_succ ps n h1]
    exact ⟨_, rfl, fun _ => h1⟩
  · have hlt : ¬ ((n : Int) + 1 < (ps.length : Int)) := by omega
    rw [if_neg hlt]
    exact ⟨false, rfl, fun hc => by cases hc⟩

/-- The body of `if (canMove)` of the vertical part either writes at index
-1 (the current point is the first one and ends a dashed segment) or changes
nothing but pitches. -/
theorem applyVerticalMove_spec (ps : List CurvePoint) (n : Nat) (cur point : CurvePoint)
    (h : n < ps.length) :
    (applyVerticalMove ps (n : Int) cur point = Except.error (-1) ∧ n = 0 ∧
      cur.endDashed = true) ∨
    (∃ ps1, applyVerticalMove ps (n : Int) cur point = Except.ok ps1 ∧
      ps1.map withoutPitch = ps.map withoutPitch ∧ (n = 0 → cur.endDashed = false)) := by
  unfold applyVerticalMove
  obtain ⟨ps1, hw1, hp1⟩ := writePitchAt_ok ps n point.pitch h
  have hl1 : ps1.length = ps.length := length_of_onlyPitch hp1
  obtain ⟨nd, hnd, hndlt⟩ := isNextDashed_ok ps1 n
  rw [hw1]
  dsimp only
  rw [hnd]
  dsimp only
  cases hd : cur.endDashed with
  | true =>
    by_cases h1 : 1 ≤ n
    · have e : (n : Int) - 1 = ((n - 1 : Nat) : Int) := by omega
      obtain ⟨ps2, hw2, hp2⟩ := writePitchAt_ok ps1 (n - 1) point.pitch (by omega)
      simp only [if_true, e, hw2]
      have hl2 : ps2.length = ps1.length := length_of_onlyPitch hp2
      right
      cases nd with
      | false =>
        exact ⟨ps2, by simp, hp2.trans hp1, fun h0 => by omega⟩
      | true =>
        have e1 : (n : Int) + 1 = ((n + 1 : Nat) : Int) := by omega
        obtain ⟨ps3, hw3, hp3⟩ := writePitchAt_ok ps2 (n + 1) point.pitch
          (by have := hndlt rfl; omega)
        exact ⟨ps3, by simp only [if_true, e1, hw3], hp3.trans (hp2.trans hp1), fun h0 => by omega⟩
    · have h0 : n = 0 := by omega
      subst h0
      left
      refine ⟨?_, rfl, rfl⟩
      have hneg : writePitchAt ps1 ((0 : Nat) - 1 : Int) point.pitch = Except.error (-1) := by
        simp [writePitchAt, readAt]
      simp only [if_true, hneg]
  | false =>
    right
    cases nd with
    | false =>
      exact ⟨ps1, by simp, hp1, fun _ => rfl⟩
    | true =>
      have e1 : (n : Int) + 1 = ((n + 1 : Nat) : Int) := by omega
      obtain ⟨ps3, hw3, hp3⟩ := writePitchAt_ok ps1 (n + 1) point.pitch
        (by have := hndlt rfl; omega)
      exact ⟨ps3, by simp only [if_true, if_false, Bool.false_eq_true, e1, hw3],
        hp3.trans hp1, fun _ => rfl⟩

/-- The vertical part on a valid index: it writes at index -1, or returns,
or goes on with a list in which nothing but pitches changed. -/
theorem moveVertically_spec (ps : List CurvePoint) (n : Nat) (point : CurvePoint)
    (wc : Bool) (h : n < ps.length) :
    (moveVertically ps (n : Int) point wc = Except.error (-1) ∧ n = 0 ∧
      ps[n].endDashed = true) ∨
    moveVertically ps (n : Int) point wc = Except.ok Flow.returned ∨
    (∃ ps1 c, moveVertically ps (n : Int) point wc = Except.ok (Flow.next ps1 c) ∧
      ps1.map withoutPitch = ps.map withoutPitch) := by
  unfold moveVertically
  rw [readAt_natCast ps n h]
  dsimp only
  obtain ⟨bl, hbl⟩ := verticalLeftCheck_ok ps n ps[n] point
    (decide (ps[n].pitch < point.pitch)) h
  rw [hbl]
  cases bl with
  | false => exact Or.inr (Or.inl rfl)
  | true =>
    dsimp only
    obtain ⟨br, hbr⟩ := verticalRightCheck_ok ps n ps[n] point
      (decide (ps[n].pitch < point.pitch))
    rw [hbr]
    cases br with
    | false => exact Or.inr (Or.inr ⟨ps, wc, rfl, rfl⟩)
    | true =>
      dsimp only
      rcases applyVerticalMove_spec ps n ps[n] point h with ⟨he, h0, hd⟩ | ⟨ps1, hok, hp, _⟩
      · rw [he]
        exact Or.inl ⟨rfl, h0, hd⟩
      · rw [hok]
        exact Or.inr (Or.inr ⟨ps1, true, rfl, hp⟩)

/-! ## BendGridCanvas: the horizontal part -/

/-- Replacing one entry of a strictly increasing list by a value strictly
between its neighbours keeps the list strictly increasing. -/
theorem pairwise_set_between (l : List Int) (n : Nat) (v : Int) (hn : n < l.length)
    (hs : l.Pairwise (· < ·))
    (hl : ∀ a, 1 ≤ n → l[n - 1]? = some a → a < v)
    (hr : ∀ b, l[n + 1]? = some b → v < b) :
    (l.set n v).Pairwise (· < ·) := by
  rw [List.pairwise_iff_getElem] at hs ⊢
  intro i j hi hj hij
  simp only [List.length_set] at hi hj
  rw [List.getElem_set, List.getElem_set]
  by_cases h1 : n = i
  · subst h1
    have hnj : ¬ n = j := by omega
    rw [if_pos rfl, if_neg hnj]
    have hn1 : n + 1 < l.length := by omega
    have hb := hr l[n + 1] (List.getElem?_eq_getElem hn1)
    by_cases hj1 : j = n + 1
    · subst hj1
      exact hb
    · have := hs (n + 1) j hn1 hj (by omega)
      omega
  · rw [if_neg h1]
    by_cases h2 : n = j
    · subst h2
      rw [if_pos rfl]
      have hn1 : n - 1 < l.length := by omega
      have ha := hl l[n - 1] (by omega) (List.getElem?_eq_getElem hn1)
      by_cases hi1 : i = n - 1
      · subst hi1
        exact ha
      · have := hs i (n - 1) hi hn1 (by omega)
        omega
    · rw [if_neg h2]
      exact hs i j hi hj hij

theorem times_getElem? (ps : List CurvePoint) (i : Nat) (hi : i < ps.length) :
    (times ps)[i]? = some ps[i].time := by
  simp [times, List.getElem?_eq_getElem hi]

theorem times_lt (ps : List CurvePoint) (hs : (times ps).Pairwise (· < ·)) (i j : Nat)
    (hi : i < ps.length) (hj : j < ps.length) (hij : i < j) : ps[i].time < ps[j].time := by
  rw [List.pairwise_iff_getElem] at hs
  have := hs i j (by simpa [times] using hi) (by simpa [times] using hj) hij
  simpa [times] using this

/-- The horizontal check on a strictly increasing list without generated
points: it allows the move only to a time strictly between the times of the
neighbours. -/
theorem horizontalCheck_spec (ps : List CurvePoint) (n : Nat) (point : CurvePoint)
    (h : n < ps.length) (hgen : ∀ p ∈ ps, p.generated = false)
    (hs : (times ps).Pairwise (· < ·)) :
    ∃ b, horizontalCheck ps (n : Int) ps[n] point = Except.ok b ∧
      (b = true →
        (∀ a, 1 ≤ n → (times ps)[n - 1]? = some a → a < point.time) ∧
        (∀ r, (times ps)[n + 1]? = some r → point.time < r)) := by
  unfold horizontalCheck
  dsimp only
  by_cases hleft : ps[n].time > point.time
  · rw [if_pos (by simpa using hleft)]
    have hright : ∀ r, (times ps)[n + 1]? = some r → point.time < r := by
      intro r hr
      by_cases h1 : n + 1 < ps.length
      · rw [times_getElem? ps (n + 1) h1] at hr
        cases hr
        have := times_lt ps hs n (n + 1) h h1 (by omega)
        omega
      · rw [List.getElem?_eq_none (by simp only [times, List.length_map]; omega)] at hr
        cases hr
    by_cases h1 : 1 ≤ n
    · have hge : (n : Int) - 1 ≥ 0 := by omega
      rw [if_pos hge, readAt_pred ps n h h1]
      refine ⟨_, rfl, ?_⟩
      intro hb
      have hg : ps[n - 1].generated = false := hgen _ (List.getElem_mem _)
      rw [hg] at hb
      simp only [Bool.false_or, decide_eq_true_eq] at hb
      refine ⟨?_, hright⟩
      intro a _ ha
      rw [times_getElem? ps (n - 1) (by omega)] at ha
      cases ha
      exact hb
    · have hge : ¬ ((n : Int) - 1 ≥ 0) := by omega
      rw [if_neg hge]
      exact ⟨true, rfl, fun _ => ⟨fun a hc _ => absurd hc h1, hright⟩⟩
  · rw [if_neg (by simpa using hleft)]
    have hle : ps[n].time ≤ point.time := by omega
    have hleftn : ∀ a, 1 ≤ n → (times ps)[n - 1]? = some a → a < point.time := by
      intro a h1 ha
      rw [times_getElem? ps (n - 1) (by omega)] at ha
      cases ha
      have := times_lt ps hs (n - 1) n (by omega) h (by omega)
      omega
    by_cases h1 : n + 1 < ps.length
    · have hlt : (n : Int) + 1 < (ps.length : Int) := by omega
      rw [if_pos hlt, readAt_succ ps n h1]
      refine ⟨_, rfl, ?_⟩
      intro hb
      have hg : ps[n + 1].generated = false := hgen _ (List.getElem_mem _)
      rw [hg] at hb
      simp only [Bool.false_or, decide_eq_true_eq] at hb
      refine ⟨hleftn, ?_⟩
      intro r hr
      rw [times_getElem? ps (n + 1) h1] at hr
      cases hr
      exact hb
    · have hlt : ¬ ((n : Int) + 1 < (ps.length : Int)) := by omega
      rw [if_neg hlt]
      refine ⟨true, rfl, fun _ => ⟨hleftn, ?_⟩⟩
      intro r hr
      rw [List.getElem?_eq_none (by simp only [times, List.length_map]; omega)] at hr
      cases hr

/-- The horizontal part on a valid index of a strictly increasing list
without generated points: it always completes, keeps the list strictly
increasing and touches no time but the one of the current point. -/
theorem moveHorizontally_spec (ps : List CurvePoint) (n : Nat) (point : CurvePoint)
    (wc : Bool) (h : n < ps.length) (hgen : ∀ p ∈ ps, p.generated = false)
    (hs : (times ps).Pairwise (· < ·)) :
    ∃ ps2 c, moveHorizontally ps (n : Int) point wc = Except.ok (ps2, c) ∧
      ps2.length = ps.length ∧ (times ps2).Pairwise (· < ·) ∧
      (∀ j, j ≠ n → (times ps2)[j]? = (times ps)[j]?) := by
  unfold moveHorizontally
  rw [readAt_natCast ps n h]
  dsimp only
  obtain ⟨b, hb, hprop⟩ := horizontalCheck_spec ps n point h hgen hs
  rw [hb]
  cases b with
  | false => exact ⟨ps, wc, rfl, rfl, hs, fun _ _ => rfl⟩
  | true =>
    dsimp only
    rw [writeTimeAt_natCast ps n point.time h]
    refine ⟨_, true, rfl, by simp, ?_, ?_⟩
    · have e : times (ps.set n { ps[n] with time := point.time })
          = (times ps).set n point.time := by
        simp [times, List.map_set]
      rw [e]
      exact pairwise_set_between (times ps) n point.time
        (by simpa [times] using h) hs (hprop rfl).1 (hprop rfl).2
    · intro j hj
      simp only [times, List.map_set]
      exact List.getElem?_set_ne (Ne.symm hj)

/-! ## BendGridCanvas: the claims -/

/-- In a strictly increasing list that agrees with another one everywhere
but at `n`, the entry at `n` lies strictly between the neighbours it has in
the other list. -/
theorem between_of_pairwise (l l2 : List Int) (n : Nat)
    (hs : l2.Pairwise (· < ·)) (hsame : ∀ j, j ≠ n → l2[j]? = l[j]?) :
    ∀ t, l2[n]? = some t →
      (∀ a, 1 ≤ n → l[n - 1]? = some a → a < t) ∧ (∀ r, l[n + 1]? = some r → t < r) := by
  rw [List.pairwise_iff_getElem] at hs
  intro t ht
  obtain ⟨hn, hnt⟩ := List.getElem?_eq_some.mp ht
  constructor
  · intro a h1 ha
    rw [← hsame (n - 1) (by omega)] at ha
    obtain ⟨hp, hpa⟩ := List.getElem?_eq_some.mp ha
    have := hs (n - 1) n hp hn (by omega)
    rw [hpa, hnt] at this
    exact this
  · intro r hr
    rw [← hsame (n + 1) (by omega)] at hr
    obtain ⟨hp, hpr⟩ := List.getElem?_eq_some.mp hr
    have := hs n (n + 1) hn hp (by omega)
    rw [hpr, hnt] at this
    exact this

theorem horizontalCheck_ok (ps : List CurvePoint) (n : Nat) (cur point : CurvePoint)
    (h : n < ps.length) : ∃ b, horizontalCheck ps (n : Int) cur point = Except.ok b := by
  unfold horizontalCheck
  dsimp only
  split
  · by_cases h1 : 1 ≤ n
    · have hge : (n : Int) - 1 ≥ 0 := by omega
      rw [if_pos hge, readAt_pred ps n h h1]
      exact ⟨_, rfl⟩
    · have hge : ¬ ((n : Int) - 1 ≥ 0) := by omega
      rw [if_neg hge]
      exact ⟨_, rfl⟩
  · by_cases h1 : n + 1 < ps.length
    · have hlt : (n : Int) + 1 < (ps.length : Int) := by omega
      rw [if_pos hlt, readAt_succ ps n h1]
      exact ⟨_, rfl⟩
    · have hlt : ¬ ((n : Int) + 1 < (ps.length : Int)) := by omega
      rw [if_neg hlt]
      exact ⟨_, rfl⟩

/-- The horizontal part on a valid index makes no access outside the list. -/
theorem moveHorizontally_ok (ps : List CurvePoint) (n : Nat) (point : CurvePoint)
    (wc : Bool) (h : n < ps.length) :
    ∃ r, moveHorizontally ps (n : Int) point wc = Except.ok r := by
  unfold moveHorizontally
  rw [readAt_natCast ps n h]
  dsimp only
  obtain ⟨b, hb⟩ := horizontalCheck_ok ps n ps[n] point h
  rw [hb]
  cases b with
  | false => exact ⟨_, rfl⟩
  | true =>
    dsimp only
    rw [writeTimeAt_natCast ps n point.time h]
    exact ⟨_, rfl⟩

/-- The shape of `mouseMoveEvent` on a valid index: it writes at index -1 in
the vertical part, or leaves the canvas as it is, or ends after the vertical
part, or ends with the horizontal part run on a list in which the vertical
part changed nothing but pitches. -/
theorem mouseMoveEvent_shape (ops : CurvePointOps) (s : Canvas) (point : CurvePoint) (n : Nat)
    (hidx : s.m_currentPointIndex = some (n : Int)) (hn : n < s.m_points.length) :
    (mouseMoveEvent ops s point = Except.error (-1) ∧ n = 0 ∧
      ∃ cur, s.m_points[0]? = some cur ∧ cur.endDashed = true ∧
        ops.canMove cur MoveDirection.Vertical = true) ∨
    mouseMoveEvent ops s point = Except.ok s ∨
    (∃ ps1 c1, ps1.map withoutPitch = s.m_points.map withoutPitch ∧
      mouseMoveEvent ops s point
        = Except.ok { s with m_points := ps1, m_canvasWasChanged := c1 }) ∨
    (∃ ps1 c1, ps1.map withoutPitch = s.m_points.map withoutPitch ∧
      mouseMoveEvent ops s point =
        match moveHorizontally ps1 (n : Int) point c1 with
        | Except.error e => Except.error e
        | Except.ok r => Except.ok { s with m_points := r.1, m_canvasWasChanged := r.2 }) := by
  unfold mouseMoveEvent
  rw [hidx]
  dsimp only
  rw [readAt_natCast _ n hn]
  dsimp only
  by_cases heq : ops.eq s.m_points[n] point = true
  · rw [if_pos heq]
    exact Or.inr (Or.inl rfl)
  · rw [if_neg heq]
    cases hV : ops.canMove s.m_points[n] MoveDirection.Vertical with
    | false =>
      cases hH : ops.canMove s.m_points[n] MoveDirection.Horizontal with
      | false => exact Or.inr (Or.inl rfl)
      | true => exact Or.inr (Or.inr (Or.inr ⟨s.m_points, s.m_canvasWasChanged, rfl, rfl⟩))
    | true =>
      have hcond : (!ops.canMove s.m_points[n] MoveDirection.Horizontal && !true) = false := by
        simp
      rw [hcond]
      simp only [Bool.false_eq_true, if_false, if_true]
      rcases moveVertically_spec s.m_points n point s.m_canvasWasChanged hn with
        ⟨he, h0, hd⟩ | hret | ⟨ps1, c1, hok, hp⟩
      · rw [he]
        refine Or.inl ⟨rfl, h0, ?_⟩
        subst h0
        exact ⟨s.m_points[0], List.getElem?_eq_getElem hn, hd, hV⟩
      · rw [hret]
        exact Or.inr (Or.inl rfl)
      · rw [hok]
        dsimp only
        cases hH : ops.canMove s.m_points[n] MoveDirection.Horizontal with
        | false => exact Or.inr (Or.inr (Or.inl ⟨ps1, c1, hp, rfl⟩))
        | true => exact Or.inr (Or.inr (Or.inr ⟨ps1, c1, hp, rfl⟩))

/-- C14, evaluated on the code: when the dragged point is the first of the
list, ends a dashed segment, can move vertically and differs from the target,
`mouseMoveEvent` performs the write `m_points[index - 1].pitch = point.pitch`
with `index - 1 = -1` (shown on `canvasDashedFirst`); with a valid index that
write is the only access of `mouseMoveEvent` that can fall outside the list. -/
theorem mouseMove_writes_before_first (ops : CurvePointOps) :
    (ops.eq dashedPoint targetPoint = false →
      ops.canMove dashedPoint MoveDirection.Vertical = true →
      mouseMoveEvent ops canvasDashedFirst targetPoint = Except.error (-1)) ∧
    (∀ (s : Canvas) (point : CurvePoint) (n : Nat) (e : Int),
      s.m_currentPointIndex = some (n : Int) → n < s.m_points.length →
      mouseMoveEvent ops s point = Except.error e →
      e = -1 ∧ n = 0 ∧ ∃ cur, s.m_points[0]? = some cur ∧ cur.endDashed = true ∧
        ops.canMove cur MoveDirection.Vertical = true) := by
  constructor
  · intro heq hv
    have hidx : canvasDashedFirst.m_currentPointIndex = some 0 := rfl
    have hr : readAt canvasDashedFirst.m_points 0 = Except.ok dashedPoint := rfl
    have hmv : moveVertically canvasDashedFirst.m_points 0 targetPoint
        canvasDashedFirst.m_canvasWasChanged = Except.error (-1) := rfl
    simp [mouseMoveEvent, hidx, hr, heq, hv, hmv]
  · intro s point n e hidx hn herr
    rcases mouseMoveEvent_shape ops s point n hidx hn with
      ⟨he, h0, hcur⟩ | hsame | ⟨ps1, c1, _, hok⟩ | ⟨ps1, c1, hp, hok⟩
    · rw [he] at herr
      cases herr
      exact ⟨rfl, h0, hcur⟩
    · rw [hsame] at herr
      cases herr
    · rw [hok] at herr
      cases herr
    · have hl : n < ps1.length := by rw [length_of_onlyPitch hp]; exact hn
      obtain ⟨r, hr⟩ := moveHorizontally_ok ps1 n point c1 hl
      rw [hok, hr] at herr
      cases herr

theorem mouseMove_writes_before_first_witness :
    mouseMoveEvent exampleOps canvasDashedFirst targetPoint = Except.error (-1) :=
  (mouseMove_writes_before_first exampleOps).1 rfl rfl

/-- C15, evaluated on the code: `canvasDashedPair` has no generated point,
strictly increasing times and a valid current index, and there
`mouseMoveEvent` stops at the write `m_points[index - 1].pitch` with
`index - 1 = -1` (lines 267-269): no point list is left.  On every other input
of the claim it completes: with a point list without generated points whose
times are strictly increasing and a valid current index `n`,
`mouseMoveEvent` either stops at that write (only if the current point is
the first one, ends a dashed segment and can move vertically), or completes,
and then the list has the same length, its times are still strictly
increasing, no time but the one of the current point changed, and the time of
the current point lies strictly between the times of its neighbours. -/
theorem mouseMove_keeps_times_increasing (ops : CurvePointOps) :
    ((∀ p ∈ canvasDashedPair.m_points, p.generated = false) ∧
      (times canvasDashedPair.m_points).Pairwise (· < ·) ∧
      canvasDashedPair.m_currentPointIndex = some 0 ∧
      0 < canvasDashedPair.m_points.length ∧
      (ops.eq dashedPoint targetPoint = false →
        ops.canMove dashedPoint MoveDirection.Vertical = true →
        mouseMoveEvent ops canvasDashedPair targetPoint = Except.error (-1))) ∧
    (∀ (s : Canvas) (point : CurvePoint) (n : Nat),
      s.m_currentPointIndex = some (n : Int) → n < s.m_points.length →
      (∀ p ∈ s.m_points, p.generated = false) →
      (times s.m_points).Pairwise (· < ·) →
      (mouseMoveEvent ops s point = Except.error (-1) ∧ n = 0 ∧
        ∃ cur, s.m_points[0]? = some cur ∧ cur.endDashed = true ∧
          ops.canMove cur MoveDirection.Vertical = true) ∨
      (∃ s1, mouseMoveEvent ops s point = Except.ok s1 ∧
        s1.m_points.length = s.m_points.length ∧
        (times s1.m_points).Pairwise (· < ·) ∧
        (∀ j, j ≠ n → (times s1.m_points)[j]? = (times s.m_points)[j]?) ∧
        (∀ t, (times s1.m_points)[n]? = some t →
          (∀ a, 1 ≤ n → (times s.m_points)[n - 1]? = some a → a < t) ∧
          (∀ r, (times s.m_points)[n + 1]? = some r → t < r)))) := by
  constructor
  · refine ⟨by decide, by decide, rfl, by decide, ?_⟩
    intro heq hv
    have hidx : canvasDashedPair.m_currentPointIndex = some 0 := rfl
    have hr : readAt canvasDashedPair.m_points 0 = Except.ok dashedPoint := rfl
    have hmv : moveVertically canvasDashedPair.m_points 0 targetPoint
        canvasDashedPair.m_canvasWasChanged = Except.error (-1) := rfl
    simp [mouseMoveEvent, hidx, hr, heq, hv, hmv]
  intro s point n hidx hn hgen hs
  have hfin : ∀ s1 : Canvas, s1.m_points.length = s.m_points.length →
      (times s1.m_points).Pairwise (· < ·) →
      (∀ j, j ≠ n → (times s1.m_points)[j]? = (times s.m_points)[j]?) →
      s1.m_points.length = s.m_points.length ∧
      (times s1.m_points).Pairwise (· < ·) ∧
      (∀ j, j ≠ n → (times s1.m_points)[j]? = (times s.m_points)[j]?) ∧
      (∀ t, (times s1.m_points)[n]? = some t →
        (∀ a, 1 ≤ n → (times s.m_points)[n - 1]? = some a → a < t) ∧
        (∀ r, (times s.m_points)[n + 1]? = some r → t < r)) :=
    fun s1 h1 h2 h3 => ⟨h1, h2, h3, between_of_pairwise _ _ n h2 h3⟩
  rcases mouseMoveEvent_shape ops s point n hidx hn with
    hbad | hsame | ⟨ps1, c1, hp, hok⟩ | ⟨ps1, c1, hp, hok⟩
  · exact Or.inl hbad
  · exact Or.inr ⟨s, hsame, hfin s rfl hs (fun _ _ => rfl)⟩
  · refine Or.inr ⟨_, hok, hfin _ (length_of_onlyPitch hp) ?_ ?_⟩
    · show (times ps1).Pairwise (· < ·)
      rw [times_of_onlyPitch hp]; exact hs
    · intro j _
      show (times ps1)[j]? = _
      rw [times_of_onlyPitch hp]
  · have hl : ps1.length = s.m_points.length := length_of_onlyPitch hp
    have ht : times ps1 = times s.m_points := times_of_onlyPitch hp
    obtain ⟨ps2, c2, hmh, hl2, hs2, hsame2⟩ := moveHorizontally_spec ps1 n point c1
      (by rw [hl]; exact hn) (generated_of_onlyPitch hp hgen) (by rw [ht]; exact hs)
    rw [hmh] at hok
    refine Or.inr ⟨_, hok, hfin _ (hl2.trans hl) hs2 ?_⟩
    intro j hj
    show (times ps2)[j]? = _
    rw [hsame2 j hj, ht]

theorem mouseMove_keeps_times_increasing_witness :
    mouseMoveEvent exampleOps canvasDashedPair targetPoint = Except.error (-1) ∧
    ((mouseMoveEvent exampleOps canvasThree targetPoint = Except.error (-1) ∧ 1 = 0 ∧
      ∃ cur, canvasThree.m_points[0]? = some cur ∧ cur.endDashed = true ∧
        exampleOps.canMove cur MoveDirection.Vertical = true) ∨
    (∃ s1, mouseMoveEvent exampleOps canvasThree targetPoint = Except.ok s1 ∧
      s1.m_points.length = canvasThree.m_points.length ∧
      (times s1.m_points).Pairwise (· < ·) ∧
      (∀ j, j ≠ 1 → (times s1.m_points)[j]? = (times canvasThree.m_points)[j]?) ∧
      (∀ t, (times s1.m_points)[1]? = some t →
        (∀ a, 1 ≤ 1 → (times canvasThree.m_points)[1 - 1]? = some a → a < t) ∧
        (∀ r, (times canvasThree.m_points)[1 + 1]? = some r → t < r)))) :=
  ⟨(mouseMove_keeps_times_increasing exampleOps).1.2.2.2.2 rfl rfl,
   (mouseMove_keeps_times_increasing exampleOps).2 canvasThree targetPoint 1 rfl (by decide)
    (by decide) (by decide)⟩

end BendGridCanvas
